import Mathlib

/-!
Verification of the concept-extraction pipeline of the Recall repository.

The development is a shallow embedding of `src/api/v1/extract_concepts.py`
(the domain-routed, category-path-aware variant that the specification
targets), together with the parts of `src/pyservice/concept_extractor.py`
that differ where a claim depends on the difference (the emergency
fallback response of its HTTP handler).

Modelling conventions, used throughout and noted again at each definition
where they matter:
* Python strings are Lean `String`s; `str.lower`/`str.upper`/`str.strip`
  are `String.toLower`/`String.toUpper`/`String.trim` (the inputs in scope
  are ASCII), `a in b` on strings is substring containment (`strContains`),
  and `s[:n]` is `String.take`.
* Python floats that hold confidence scores are modelled as rationals
  (`Rat`); the scores compared by the code are short decimal literals, on
  which rational and IEEE-754 comparison agree.
* Python dicts used as records are modelled as structures whose fields
  hold the values that `dict.get(key, default)` would produce; a field
  that some producers leave absent is modelled by its read-site default
  whenever every read site uses `.get` with that default.  Dicts with
  dynamic keys (the JSON values of a model response, the result cache,
  the learned-mapping store) are association lists with unique keys in
  insertion order, matching CPython dict semantics.
* `datetime.now().isoformat()` bookkeeping fields (`last_updated`,
  `extraction_time`) are omitted: no control flow and no claim reads them.
* Library calls whose implementation is external to the repository
  (`hashlib.md5`, `json.dumps`, `str()` rendering) are parameters of the
  definitions that use them.
* The LLM (`AsyncOpenAI ... create`) is an external collaborator; a run
  of the orchestrator consumes its responses from an `Oracle`, and an
  exception from the client or from response parsing is an `.error`
  outcome.
-/

/-! ## Basic string utilities (Python semantics) -/

/-- `charsPrefix n h` : the character list `n` is a prefix of `h`. -/
def charsPrefix : List Char → List Char → Bool
  | [], _ => true
  | _ :: _, [] => false
  | a :: n, b :: h => a == b && charsPrefix n h

/-- `charsInfix n h` : the character list `n` occurs contiguously in `h`. -/
def charsInfix : List Char → List Char → Bool
  | n, [] => n.isEmpty
  | n, c :: t => charsPrefix n (c :: t) || charsInfix n t

/-- Python `needle in hay` on strings (substring containment). -/
def strContains (hay needle : String) : Bool :=
  charsInfix needle.toList hay.toList

/-- Python `str.lower()` (ASCII scope).  Defined by structural recursion
over the character list so that it evaluates inside the kernel (the core
`String.toLower` does not reduce definitionally). -/
def pyLower (s : String) : String :=
  String.mk (s.toList.map Char.toLower)

/-- Python `str.upper()` (ASCII scope). -/
def pyUpper (s : String) : String :=
  String.mk (s.toList.map Char.toUpper)

/-- Python `str.strip()`: drop leading and trailing whitespace. -/
def pyStrip (s : String) : String :=
  String.mk (((s.toList.dropWhile Char.isWhitespace).reverse.dropWhile
    Char.isWhitespace).reverse)

/-- Python slicing `s[:n]` on a string (character count). -/
def pyTake (s : String) (n : Nat) : String :=
  String.mk (s.toList.take n)

/-- Left-to-right non-overlapping split on a non-empty separator, the
meaning of Python `str.split(sep)`.  The `fuel` argument (instantiated
with the list length, which strictly dominates every recursive call)
makes the recursion structural so the function evaluates in the
kernel. -/
def splitOnFuel (sep : List Char) : Nat → List Char → List (List Char)
  | _, [] => [[]]
  | 0, l => [l]
  | fuel + 1, c :: rest =>
    if charsPrefix sep (c :: rest) then
      [] :: splitOnFuel sep fuel ((c :: rest).drop sep.length)
    else
      match splitOnFuel sep fuel rest with
      | [] => [[c]]
      | p :: ps => (c :: p) :: ps

/-- Python `s.split(sep)` for a non-empty separator. -/
def pySplitOn (s sep : String) : List String :=
  if sep == "" then [s]
  else (splitOnFuel sep.toList s.toList.length s.toList).map String.mk

/-- The remainder of the haystack after the first occurrence of
`needle` (`none` when it does not occur). -/
def afterFirst (needle : List Char) : List Char → Option (List Char)
  | [] => none
  | c :: rest =>
    if charsPrefix needle (c :: rest) then some ((c :: rest).drop needle.length)
    else afterFirst needle rest

/-- Python `str.split()` with no argument: split on whitespace runs,
dropping empty pieces. -/
def splitWSGo : List Char → List Char → List String
  | [], cur => if cur.isEmpty then [] else [String.mk cur.reverse]
  | c :: rest, cur =>
    if c.isWhitespace then
      if cur.isEmpty then splitWSGo rest []
      else String.mk cur.reverse :: splitWSGo rest []
    else splitWSGo rest (c :: cur)

/-- Python `str.split()` with no argument. -/
def splitWS (s : String) : List String :=
  splitWSGo s.toList []

/-- Python `str.istitle()` for one token: there is at least one cased
character, every uppercase character follows an uncased one and every
lowercase character follows a cased one. -/
def pyIsTitleGo : List Char → Bool → Bool → Bool
  | [], _, seenCased => seenCased
  | c :: rest, prevCased, seenCased =>
    if c.isUpper then
      if prevCased then false else pyIsTitleGo rest true true
    else if c.isLower then
      if prevCased then pyIsTitleGo rest true true else false
    else
      pyIsTitleGo rest false seenCased

/-- Python `str.istitle()`. -/
def pyIsTitle (s : String) : Bool :=
  pyIsTitleGo s.toList false false

/-- A word character of the regex `\w` (ASCII scope: letters, digits,
underscore). -/
def isWordChar (c : Char) : Bool :=
  c.isAlphanum || c == '_'

/-- Maximal runs of word characters of a string, in order; the matches of
`re.findall(r'\b\w{4,}\b', s)` are exactly those runs of length at least
four. -/
def wordRunsGo : List Char → List Char → List String
  | [], cur => if cur.isEmpty then [] else [String.mk cur.reverse]
  | c :: rest, cur =>
    if isWordChar c then wordRunsGo rest (c :: cur)
    else if cur.isEmpty then wordRunsGo rest []
    else String.mk cur.reverse :: wordRunsGo rest []

/-- All maximal word-character runs of a string. -/
def wordRuns (s : String) : List String :=
  wordRunsGo s.toList []

/-- Insert a string into a duplicate-free list if not yet present
(Python `set.add`, with set iteration modelled as insertion order). -/
def sinsert (l : List String) (x : String) : List String :=
  if l.contains x then l else l ++ [x]

/-- Deduplicate a list of strings keeping first occurrences
(`set(...)` membership, insertion order). -/
def dedupStr (l : List String) : List String :=
  l.foldl sinsert []

/-- The distinct words of length ≥ 4 of a string:
`set(re.findall(r'\b\w{4,}\b', s))`. -/
def wordSet (s : String) : List String :=
  dedupStr ((wordRuns s).filter (fun w => w.length ≥ 4))

/-- Size of the intersection of two deduplicated word lists
(`len(a & b)` on Python sets). -/
def overlapCount (a b : List String) : Nat :=
  (a.filter (fun w => b.contains w)).length

/-! ## Association lists with unique keys (CPython dicts) -/

/-- `dict.get(k)`: first (and, with unique keys, only) value under `k`. -/
def alookup {α : Type} : List (String × α) → String → Option α
  | [], _ => none
  | (k, v) :: rest, key => if k == key then some v else alookup rest key

/-- `d[k] = v`: replace in place when the key exists (keeping its
position, as CPython dicts do), append otherwise. -/
def aset {α : Type} : List (String × α) → String → α → List (String × α)
  | [], key, v => [(key, v)]
  | (k, w) :: rest, key, v =>
    if k == key then (k, v) :: rest else (k, w) :: aset rest key v

theorem alookup_aset_self {α : Type} (m : List (String × α)) (k : String) (v : α) :
    alookup (aset m k v) k = some v := by
  induction m with
  | nil => simp [aset, alookup]
  | cons h t ih =>
    obtain ⟨k', w⟩ := h
    by_cases hk : k' = k
    · simp [aset, alookup, hk]
    · simp [aset, alookup, hk, ih]

theorem alookup_aset_ne {α : Type} (m : List (String × α)) (k k' : String) (v : α)
    (h : k' ≠ k) : alookup (aset m k v) k' = alookup m k' := by
  induction m with
  | nil =>
    simp [aset, alookup]
    intro he
    exact absurd he.symm h
  | cons hd t ih =>
    obtain ⟨k₀, w⟩ := hd
    by_cases hk : k₀ = k
    · subst hk
      simp only [aset, beq_self_eq_true, if_pos]
      have : (k₀ == k') = false := by
        simp only [beq_eq_false_iff_ne, ne_eq]
        intro he
        exact h he.symm
      simp [alookup, this]
    · simp only [aset, beq_iff_eq, hk, if_neg, not_false_iff]
      by_cases hk' : k₀ = k'
      · simp [alookup, hk']
      · simp [alookup, hk', ih]

theorem alookup_append_single_none {α : Type} (m : List (String × α)) (k : String) (v : α)
    (h : alookup m k = none) : alookup (m ++ [(k, v)]) k = some v := by
  induction m with
  | nil => simp [alookup]
  | cons hd t ih =>
    obtain ⟨k₀, w⟩ := hd
    by_cases hk : k₀ = k
    · simp [alookup, hk] at h
    · simp only [alookup, beq_iff_eq, hk, if_neg, not_false_iff] at h ⊢
      exact ih h

theorem alookup_append_single_ne {α : Type} (m : List (String × α)) (k k' : String) (v : α)
    (h : k' ≠ k) : alookup (m ++ [(k, v)]) k' = alookup m k' := by
  induction m with
  | nil =>
    simp [alookup]
    intro he
    exact absurd he.symm h
  | cons hd t ih =>
    obtain ⟨k₀, w⟩ := hd
    by_cases hk : k₀ = k'
    · simp [alookup, hk]
    · simp [alookup, hk, ih]

/-! ## JSON values of a model response

`_parse_structured_response` receives arbitrary parsed JSON.  `JVal` is
the image of `json.loads`: strings, numbers (modelled as rationals),
booleans, `null`, arrays and objects.  Objects are association lists with
unique keys in insertion order. -/

inductive JVal where
  | str (s : String)
  | num (q : Rat)
  | bool (b : Bool)
  | null
  | arr (l : List JVal)
  | obj (o : List (String × JVal))

/-- First value stored under a key of a JSON object (`dict[k]` /
`dict.get(k)`); with unique keys this is the value of the key. -/
def jfind (o : List (String × JVal)) (k : String) : Option JVal :=
  alookup o k

/-- Python `k in dict`. -/
def hasKey (o : List (String × JVal)) (k : String) : Bool :=
  (jfind o k).isSome

/-- Python `dict.get(k, d)`. -/
def jgetD (o : List (String × JVal)) (k : String) (d : JVal) : JVal :=
  (jfind o k).getD d

/-- Python `dict[k] = v` on a JSON object. -/
def jset (o : List (String × JVal)) (k : String) (v : JVal) : List (String × JVal) :=
  aset o k v

/-- Equality test of a JSON value against a string literal, as Python
`==` inside `x in someList` membership tests: only a JSON string can
equal a Python string. -/
def jvalEqStr (v : JVal) (s : String) : Bool :=
  match v with
  | .str t => t == s
  | _ => false

/-! ## Per-concept processing of `_parse_structured_response`
(`src/api/v1/extract_concepts.py`, the `for i, concept in
enumerate(response_data.get("concepts", []))` loop, lines 999-1085,
and its helpers `_process_details`, `_process_code_examples`,
`_process_notes`, `_process_relationships`,
`_process_learning_resources`).

Each step that can raise a Python exception is an `Except` whose error
payload is the concept dict at the moment of the raise: the loop mutates
the raw dict in place before the failure point, and the `except` recovery
block reads the mutated dict. -/

/-- `re.split(r'\s*>\s*', category)` followed by `.strip()` of every
piece: splitting on `>` and trimming agrees with the regex split on the
surrounding whitespace. -/
def splitGt (cat : String) : List String :=
  (pySplitOn cat ">").map pyStrip

/-- `_process_details`: a dict keeps its `implementation` value when
present and is otherwise rendered by `json.dumps` (parameter `dumps`); a
string passes through; any other value is rendered by `str()` (parameter
`pystr`).  Total, never raises. -/
def processDetails (dumps pystr : JVal → String) (v : JVal) : JVal :=
  match v with
  | .obj o =>
    match jfind o "implementation" with
    | some impl => impl
    | none => .str (dumps (.obj o))
  | .str s => .str s
  | other => .str (pystr other)

/-- One element of `_process_code_examples`' loop: a dict element is
normalized, any non-dict element raises inside the per-element `try` and
is skipped. -/
def processOneExample (e : JVal) : Option JVal :=
  match e with
  | .obj o =>
    some (.obj [
      ("language", jgetD o "language" (.str "text")),
      ("code", jgetD o "code" (.str "")),
      ("explanation", jgetD o "explanation" (jgetD o "description" (.str ""))),
      ("description", jgetD o "description" (jgetD o "explanation" (.str "")))])
  | _ => none

/-- `_process_code_examples`: iterating a non-iterable (number, boolean,
`None`) raises `TypeError` outside the per-element `try`; iterating a
string or a dict yields strings (characters / keys), each of which fails
the per-element `try` and is skipped, giving `[]`. -/
def processCodeExamples (v : JVal) : Except Unit (List JVal) :=
  match v with
  | .arr l => .ok (l.filterMap processOneExample)
  | .str _ => .ok []
  | .obj _ => .ok []
  | _ => .error ()

/-- `_process_notes`: `.get` chains on the value, raising
`AttributeError` when it is not a dict. -/
def processNotes (v : JVal) : Except Unit JVal :=
  match v with
  | .obj o =>
    .ok (.obj [
      ("principles", jgetD o "principles" (.arr [])),
      ("implementation", jgetD o "implementation" (.str "")),
      ("complexity", jgetD o "complexity" (.obj [])),
      ("use_cases", jgetD o "useCases" (jgetD o "use_cases" (.arr []))),
      ("edge_cases", jgetD o "edgeCases" (jgetD o "edge_cases" (.arr []))),
      ("performance", jgetD o "performance" (.str ""))])
  | _ => .error ()

/-- `_process_relationships`: same raising discipline as
`_process_notes`. -/
def processRelationships (v : JVal) : Except Unit JVal :=
  match v with
  | .obj o =>
    .ok (.obj [
      ("prerequisites", jgetD o "prerequisites" (.arr [])),
      ("related_concepts", jgetD o "related_concepts" (jgetD o "relatedConcepts" (.arr []))),
      ("applications", jgetD o "applications" (.arr [])),
      ("dataStructures", jgetD o "dataStructures" (jgetD o "data_structures" (.arr []))),
      ("algorithms", jgetD o "algorithms" (.arr []))])
  | _ => .error ()

/-- `_process_learning_resources`: same raising discipline as
`_process_notes`. -/
def processLearningResources (v : JVal) : Except Unit JVal :=
  match v with
  | .obj o =>
    .ok (.obj [
      ("documentation", jgetD o "documentation" (.arr [])),
      ("tutorials", jgetD o "tutorials" (.arr [])),
      ("practice_problems", jgetD o "practice_problems" (jgetD o "practiceProblems" (.arr []))),
      ("further_reading", jgetD o "further_reading" (jgetD o "furtherReading" (.arr [])))])
  | _ => .error ()

/-- The `categoryPath` backfill step (lines 1004-1014).  `category` is
read only when `categoryPath` is absent; the separator membership test
`sep in category` raises `TypeError` on a number, boolean or `None`, is
element membership on an array, key membership on a dict, and substring
containment on a string; `re.split` then raises on any non-string
`category` for which a separator membership test succeeded.  The error
payload is the dict as mutated so far (here: unmutated). -/
def ensureCategoryPath (o : List (String × JVal)) :
    Except JVal (List (String × JVal)) :=
  if !hasKey o "categoryPath" && hasKey o "category" then
    match jfind o "category" with
    | some (.str cat) =>
      if strContains cat " > " || strContains cat ">" then
        .ok (jset o "categoryPath" (.arr ((splitGt cat).map JVal.str)))
      else
        .ok (jset o "categoryPath" (.arr [.str cat]))
    | some (.arr l) =>
      if l.any (fun e => jvalEqStr e " > ") || l.any (fun e => jvalEqStr e ">") then
        .error (.obj o)
      else
        .ok (jset o "categoryPath" (.arr [.arr l]))
    | some (.obj inner) =>
      if hasKey inner " > " || hasKey inner ">" then
        .error (.obj o)
      else
        .ok (jset o "categoryPath" (.arr [.obj inner]))
    | some _ => .error (.obj o)
    | none => .ok o
  else
    .ok o

/-- The main (`try`) body of one iteration of the concept loop: the
mutation steps (`categoryPath`, `title`, `summary`, `details` backfills,
lines 1004-1033) followed by the construction of `processed_concept`
(lines 1036-1056), whose field expressions are evaluated in source order
so that the first raising helper determines the error payload.
`convSummary` is `response_data.get("conversation_summary", "")`.
The `last_updated` timestamp field is omitted (never read). -/
def mainProcess (dumps pystr : JVal → String) (convSummary : String)
    (c : JVal) : Except JVal JVal :=
  match c with
  | .obj o0 =>
    match ensureCategoryPath o0 with
    | .error e => .error e
    | .ok o1 =>
      let o2 := if hasKey o1 "title" then o1 else jset o1 "title" (.str "Untitled Concept")
      let o3 := if hasKey o2 "summary" then o2
                else jset o2 "summary" (.str (pyTake convSummary 150))
      let o4 :=
        if hasKey o3 "implementation" && !hasKey o3 "details" then
          jset o3 "details" (jgetD o3 "implementation" .null)
        else if hasKey o3 "insights" && !hasKey o3 "details" then
          jset o3 "details" (jgetD o3 "insights" .null)
        else if !hasKey o3 "details" then
          jset o3 "details" (jgetD o3 "summary" (.str ""))
        else o3
      match processCodeExamples (jgetD o4 "codeSnippets" (jgetD o4 "code_examples" (.arr []))) with
      | .error _ => .error (.obj o4)
      | .ok snips =>
        match processNotes (jgetD o4 "notes" (.obj [])) with
        | .error _ => .error (.obj o4)
        | .ok notes =>
          match processCodeExamples (jgetD o4 "codeSnippets" (jgetD o4 "code_examples" (.arr []))) with
          | .error _ => .error (.obj o4)
          | .ok snips2 =>
            match processLearningResources (jgetD o4 "learning_resources" (jgetD o4 "learningResources" (.obj []))) with
            | .error _ => .error (.obj o4)
            | .ok lres =>
              match processRelationships (jgetD o4 "relationships" (jgetD o4 "related_concepts" (.obj []))) with
              | .error _ => .error (.obj o4)
              | .ok rels =>
                .ok (.obj [
                  ("title", jgetD o4 "title" (.str "Untitled Concept")),
                  ("category", jgetD o4 "category" (.str "General")),
                  ("categoryPath", jgetD o4 "categoryPath" (.arr [jgetD o4 "category" (.str "General")])),
                  ("subcategories", jgetD o4 "subcategories" (.arr [])),
                  ("summary", jgetD o4 "summary" (.str "")),
                  ("keyPoints", jgetD o4 "keyPoints" (.arr [])),
                  ("details", processDetails dumps pystr (jgetD o4 "details" (jgetD o4 "implementation" (.str "")))),
                  ("codeSnippets", .arr snips),
                  ("notes", notes),
                  ("code_examples", .arr snips2),
                  ("learning_resources", lres),
                  ("relationships", rels),
                  ("relatedConcepts", jgetD o4 "relatedConcepts" (.arr [])),
                  ("confidence_score", jgetD o4 "confidence_score" (.num (mkRat 4 5)))])
  | other => .error other

/-- Python slicing `x[:100]` inside the recovery block:
defined for strings and lists, raises `TypeError` otherwise. -/
def pySlice100 (v : JVal) : Option JVal :=
  match v with
  | .str s => some (.str (pyTake s 100))
  | .arr l => some (.arr (l.take 100))
  | _ => none

/-- The minimal-fields concept built by the recovery block (lines
1066-1081) from the (mutated) concept dict `o`; `detSliced` is the
already-evaluated default `concept.get("details", "")[:100]` of the
`summary` read (CPython evaluates the default eagerly). -/
def minimalRecovery (o : List (String × JVal)) (detSliced : JVal) : JVal :=
  .obj [
    ("title", jgetD o "title" (.str "Untitled Concept")),
    ("category", jgetD o "category" (.str "General")),
    ("summary", jgetD o "summary" detSliced),
    ("keyPoints", jgetD o "keyPoints" (.arr [])),
    ("details", .obj [
      ("implementation", jgetD o "details" (jgetD o "implementation" (.str ""))),
      ("complexity", .obj [("time", .str "O(n)"), ("space", .str "O(n)")]),
      ("useCases", .arr []),
      ("edgeCases", .arr []),
      ("performance", .str "")]),
    ("relatedConcepts", jgetD o "relatedConcepts" (.arr [])),
    ("confidence_score", jgetD o "confidence_score" (.num (mkRat 1 2)))]

/-- The recovery (`except`) block of the concept loop (lines 1060-1085):
the concept is kept, in minimal form, exactly when the raising dict has a
`title` key and the eager `[:100]` slice of its `details` value does not
itself raise; any failure inside the block (non-dict payload whose
`"title" in concept` test raises, a string payload whose `.get` raises
after the substring test, an unsliceable `details`) hits the inner
`except` and the concept is dropped. -/
def recoverConcept (payload : JVal) : Option JVal :=
  match payload with
  | .obj o =>
    if hasKey o "title" then
      match pySlice100 (jgetD o "details" (.str "")) with
      | some d => some (minimalRecovery o d)
      | none => none
    else none
  | _ => none

/-- One full iteration of the concept loop: main processing, recovery on
failure. -/
def processOneConcept (dumps pystr : JVal → String) (convSummary : String)
    (c : JVal) : Option JVal :=
  match mainProcess dumps pystr convSummary c with
  | .ok p => some p
  | .error payload => recoverConcept payload

/-- The whole concept loop, accumulating `processed_concepts` in order. -/
def processConcepts (dumps pystr : JVal → String) (convSummary : String) :
    List JVal → List JVal
  | [] => []
  | c :: rest =>
    match processOneConcept dumps pystr convSummary c with
    | some p => p :: processConcepts dumps pystr convSummary rest
    | none => processConcepts dumps pystr convSummary rest

/-! ## Concept records at the orchestrator level

`analyze_conversation` post-processes the concept dicts produced by
`_analyze_segment`.  Every field the orchestrator reads is read through
`.get` with a default (or, for `title`, is present on every concept the
pipeline builds), so a concept is modelled as a structure whose fields
hold the defaulted values; `_is_technique` (written, never read) is kept
as `isTechnique`, and of the `relationships` dict only the two lists the
orchestrator reads are kept. -/

structure PRelationships where
  dataStructures : List String := []
  algorithms : List String := []

/-- One entry of a `codeSnippets` list; only its presence (list length)
is read by the orchestrator, its fields mirror `_process_code_examples`
output (the hardcoded fallback concepts carry no `explanation` key, whose
absence is modelled by the default). -/
structure CodeSnippet where
  language : String := ""
  description : String := ""
  explanation : String := ""
  code : String := ""

structure PConcept where
  title : String
  category : String := "General"
  categoryPath : List String := []
  subcategories : List String := []
  summary : String := ""
  keyPoints : List String := []
  details : JVal := .str ""
  codeSnippets : List CodeSnippet := []
  relationships : PRelationships := {}
  relatedConcepts : List String := []
  confidence_score : Rat := mkRat 4 5
  isTechnique : Bool := false
  source_topic : String := ""

/-! ## Deduplication (lines 1986-1996 and 2262-2276)

Both dedup blocks build a dict keyed by the exact `title` string and take
`list(unique_concepts.values())`: an association list in key insertion
order, values replaced in place. -/

/-- Replacement condition of the single-pass dedup (line 1991): strictly
higher confidence only, no tie-break. -/
def betterSP (c e : PConcept) : Bool :=
  c.confidence_score > e.confidence_score

/-- Replacement condition of the multi-pass dedup (lines 2269-2273):
strictly higher confidence, or equal confidence with strictly more code
snippets. -/
def betterMP (c e : PConcept) : Bool :=
  c.confidence_score > e.confidence_score ||
    (c.confidence_score == e.confidence_score &&
      c.codeSnippets.length > e.codeSnippets.length)

/-- Generic title-keyed dedup fold over an insertion-ordered dict. -/
def dedupFold (better : PConcept → PConcept → Bool) :
    List (String × PConcept) → List PConcept → List (String × PConcept)
  | m, [] => m
  | m, c :: rest =>
    dedupFold better
      (match alookup m c.title with
       | none => m ++ [(c.title, c)]
       | some e => if better c e then aset m c.title c else m) rest

/-- Single-pass dedup (lines 1986-1996). -/
def dedupSinglePass (l : List PConcept) : List PConcept :=
  (dedupFold betterSP [] l).map Prod.snd

/-- Multi-pass dedup with the code-snippet tie-break (lines 2262-2276). -/
def dedupTiebreak (l : List PConcept) : List PConcept :=
  (dedupFold betterMP [] l).map Prod.snd

/-! ## Technique enrichment (lines 1998-2091, `_get_technique_info`,
`_get_technique_complexity`) -/

/-- Line 2005-2008: a concept participates in technique synthesis when
its title mentions a problem or its category is one of the
problem-solving labels. -/
def isProblemConcept (c : PConcept) : Bool :=
  strContains (pyLower c.title) "problem" ||
    ["problem-solving", "algorithm", "leetcode", "coding challenge"].contains (pyLower c.category)

/-- Technique collection (lines 2011-2050).  Python accumulates into a
`set`; its iteration order is implementation defined and is modelled as
insertion order (no claim depends on the order). -/
def scanTechniques (c : PConcept) : List String :=
  let t0 := c.keyPoints.foldl (fun acc point =>
    let pl := (pyLower point)
    if ["hash", "dictionary", "map"].any (fun term => strContains pl term) then
      sinsert acc "Hash Table"
    else if strContains pl "frequency" || strContains pl "count" then
      sinsert acc "Frequency Counting"
    else if strContains pl "pointer" then
      sinsert acc "Two Pointer Technique"
    else if strContains pl "window" then
      sinsert acc "Sliding Window"
    else acc) []
  let t1 := c.subcategories.foldl (fun acc subcat =>
    let sl := (pyLower subcat)
    if strContains sl "hash" || strContains sl "dict" then
      sinsert acc "Hash Table"
    else if strContains sl "frequency" || strContains sl "count" then
      sinsert acc "Frequency Counting"
    else acc) t0
  let t2 := c.relationships.dataStructures.foldl (fun acc ds =>
    if strContains (pyLower ds) "dictionary" then
      sinsert acc "Hash Table"
    else if !(["Array", "List", "String", "Integer"].contains ds) then
      sinsert acc ds
    else acc) t1
  c.relationships.algorithms.foldl (fun acc algo =>
    if ["frequency count", "frequency counting"].contains (pyLower algo) then
      sinsert acc "Frequency Count"
    else if !(["Iteration", "Loop"].contains algo) then
      sinsert acc algo
    else acc) t2

/-- `_get_technique_info` (lines 2293-2414): canned description, key
points and implementation text per technique. -/
def techniqueInfo (technique problemTitle : String) : String × List String × String :=
  let tl := (pyLower technique)
  if strContains tl "hash table" || strContains tl "dictionary" then
    ("A data structure that maps keys to values using a hash function, allowing for efficient lookups with average O(1) time complexity.",
     ["Provides O(1) average time complexity for lookups, insertions, and deletions",
      "Maps keys to values using a hash function",
      "Handles collisions through techniques like chaining or open addressing",
      "Essential for problems requiring fast element lookup or counting",
      "Implemented as Dictionary in Python, HashMap in Java, and similar constructs in other languages"],
     "Hash tables work by transforming a key into an array index using a hash function. This allows for direct access to values without needing to search through the entire data structure. In problems like " ++ problemTitle ++ ", hash tables enable efficient element tracking and duplicate detection.")
  else if strContains tl "frequency count" then
    ("A technique that counts occurrences of elements in a collection, typically implemented using hash tables.",
     ["Tracks the number of occurrences of each element",
      "Typically implemented using a hash table/dictionary",
      "Enables verification of character or element distribution",
      "Common in string manipulation, anagram detection, and duplicate finding",
      "Usually achieves O(n) time complexity where n is the input size"],
     "Frequency counting creates a map where keys are elements and values are their counts. By iterating through the collection once, we build this frequency map, which can then be used to solve various problems efficiently. For " ++ problemTitle ++ ", it helps track which elements have been seen before.")
  else if strContains tl "two pointer" then
    ("An algorithm technique using two pointers to traverse a data structure, often reducing time complexity from O(n²) to O(n).",
     ["Uses two pointers that move through the data structure",
      "Often reduces time complexity from O(n²) to O(n)",
      "Commonly used for array, linked list, and string problems",
      "Effective for search, comparison, and subarray problems",
      "Can operate with pointers moving in the same or opposite directions"],
     "The two-pointer technique involves maintaining two reference points within a data structure. These pointers can move toward each other (for problems like finding pairs with a target sum), away from each other (for expanding around a center), or in the same direction (for sliding window problems). While not typically used for " ++ problemTitle ++ ", it\x27s essential for many other algorithm challenges.")
  else if strContains tl "sliding window" then
    ("A technique for processing sequential data elements using a window that slides through the data.",
     ["Maintains a \x27window\x27 of elements that expands or contracts",
      "Avoids recomputation by tracking window state incrementally",
      "Typically reduces O(n²) or worse solutions to O(n)",
      "Ideal for subarray or substring problems with constraints",
      "Used for finding subarrays with specific properties"],
     "The sliding window approach works by maintaining a range of elements (the window) that meets certain criteria. As the window slides through the data, we incrementally update the state based on elements entering and leaving the window, avoiding redundant calculations. This achieves linear time complexity for problems that would otherwise require nested loops.")
  else if strContains tl "binary search" then
    ("A divide-and-conquer search algorithm that finds elements in a sorted array in logarithmic time.",
     ["Works on sorted data structures",
      "Achieves O(log n) time complexity",
      "Repeatedly divides the search space in half",
      "Can be applied to answer Yes/No questions on monotonic functions",
      "Effective for finding elements or boundaries in sorted collections"],
     "Binary search divides the search space in half at each step. Starting with the entire range, we compare the middle element with our target, then eliminate half of the remaining elements based on that comparison. This continues until the target is found or the search space is empty, resulting in O(log n) time complexity.")
  else if strContains tl "dynamic programming" then
    ("An algorithmic technique that breaks down problems into overlapping subproblems and builds up solutions.",
     ["Breaks problems into overlapping subproblems",
      "Stores previously computed results to avoid redundant calculation",
      "Can be implemented with memoization (top-down) or tabulation (bottom-up)",
      "Optimizes exponential solutions to polynomial time",
      "Effective for optimization problems and counting problems"],
     "Dynamic programming works by breaking complex problems into smaller, overlapping subproblems. By storing the solutions to these subproblems (using memoization or tabulation), we avoid redundant calculations and build up to the final solution. This transforms exponential time solutions into polynomial time, particularly for problems with optimal substructure and overlapping subproblems.")
  else if strContains tl "hashing" then
    ("A technique that converts data of arbitrary size to fixed-size values, fundamental to hash table implementation.",
     ["Converts data to a fixed-size value (hash)",
      "Enables O(1) average lookup time in hash tables",
      "Used for data integrity verification and indexing",
      "Common in duplicate detection and data validation",
      "Balance between computation speed and collision avoidance"],
     "Hashing involves applying a function to input data to produce a fixed-size output value. This hash value serves as an index in a hash table, enabling fast lookups, insertions, and deletions. Good hash functions distribute elements evenly across the hash table, minimizing collisions. In " ++ problemTitle ++ ", hashing helps quickly determine if an element has been seen before.")
  else
    ("A key technique used in " ++ problemTitle ++ ".",
     ["Used to solve " ++ problemTitle ++ " efficiently"],
     "This technique is commonly implemented in problems like " ++ problemTitle ++ ".")

/-- `_get_technique_complexity` (lines 2416-2447). -/
def techniqueComplexity (technique complexityType : String) : String :=
  let tl := (pyLower technique)
  if complexityType == "time" then
    if strContains tl "hash table" || strContains tl "dictionary" || strContains tl "hashing" then
      "Average: O(1) for lookups, insertions, and deletions. Worst case: O(n) if many collisions occur."
    else if strContains tl "frequency count" then
      "O(n) where n is the number of elements being counted."
    else if strContains tl "two pointer" || strContains tl "sliding window" then
      "O(n) where n is the size of the input array or string."
    else if strContains tl "binary search" then
      "O(log n) where n is the size of the sorted input array."
    else if strContains tl "dynamic programming" then
      "Typically O(n²) or O(n*m) depending on the specific problem, but varies widely."
    else
      "Varies depending on implementation and specific problem constraints."
  else
    if strContains tl "hash table" || strContains tl "dictionary" || strContains tl "frequency count" then
      "O(n) where n is the number of unique elements or characters being tracked."
    else if strContains tl "two pointer" then
      "O(1) as only a constant amount of extra space is needed."
    else if strContains tl "sliding window" then
      "O(1) to O(k) where k is the window size, depending on what needs to be tracked."
    else if strContains tl "binary search" then
      "O(1) for iterative implementation, O(log n) for recursive implementation due to call stack."
    else if strContains tl "dynamic programming" then
      "O(n) to O(n²) typically, depending on the dimensions of the DP table."
    else if strContains tl "hashing" then
      "O(n) where n is the number of elements being hashed and stored."
    else
      "Varies depending on implementation and specific problem constraints."

/-- The technique mini-concept (lines 2062-2081). -/
def mkTechConcept (technique problemTitle : String) : PConcept :=
  let info := techniqueInfo technique problemTitle
  { title := technique,
    category :=
      if ["hash table", "dictionary", "array", "set"].contains (pyLower technique) then
        "Data Structure"
      else "Algorithm Technique",
    subcategories := [problemTitle],
    summary := info.1,
    details := .obj [
      ("implementation", .str info.2.2),
      ("complexity", .obj [
        ("time", .str (techniqueComplexity technique "time")),
        ("space", .str (techniqueComplexity technique "space"))]),
      ("useCases", .arr [
        .str ("Solving " ++ problemTitle),
        .str "Efficient data retrieval",
        .str "Deduplication"])],
    keyPoints := info.2.1,
    confidence_score := mkRat 7 10,
    isTechnique := true,
    relatedConcepts := [problemTitle] }

/-- The `techniques_to_add` accumulation over all main concepts (lines
2000-2085): generic techniques are skipped and a technique already
accumulated (case-insensitive title match) is not added twice. -/
def buildTechniques (concepts : List PConcept) : List PConcept :=
  concepts.foldl (fun acc c =>
    if isProblemConcept c then
      (scanTechniques c).foldl (fun acc2 tech =>
        if ["array", "list", "string", "integer", "iteration", "loop"].contains (pyLower tech) then
          acc2
        else if acc2.any (fun t => (pyLower t.title) == (pyLower tech)) then
          acc2
        else acc2 ++ [mkTechConcept tech c.title]) acc
    else acc) []

/-! ## Related-concepts dedup and LeetCode post-processing
(lines 2093-2135) -/

/-- Case-insensitive first-occurrence filter of lines 2096-2099 (`seen`
is a set of lowercased entries; an entry is kept iff its lowercase has
not been seen). -/
def dedupCIGo (seen : List String) : List String → List String
  | [] => []
  | x :: rest =>
    if seen.contains (pyLower x) then dedupCIGo seen rest
    else x :: dedupCIGo ((pyLower x) :: seen) rest

/-- Case-insensitive dedup of a `relatedConcepts` list, preserving
first-seen order. -/
def dedupCI (l : List String) : List String :=
  dedupCIGo [] l

/-- Lines 2094-2099 applied to one concept.  (`"relatedConcepts" in
concept` is true for every concept the pipeline builds, so the guard is
always taken.) -/
def dedupRelated (c : PConcept) : PConcept :=
  { c with relatedConcepts := dedupCI c.relatedConcepts }

/-- `is_likely_leetcode` (lines 2108-2118). -/
def isLikelyLeetcode (c : PConcept) : Bool :=
  (decide ((splitWS c.title).length ≤ 4) && (splitWS c.title).any pyIsTitle) ||
    ["leetcode", "problem", "algorithm", "solution", "approach",
     "time complexity", "space complexity", "optimization"].any
      (fun phrase => strContains (pyLower c.summary) phrase) ||
    strContains (pyLower c.summary) "interview" ||
    strContains (pyLower c.summary) "challenge"

/-- The back-link step for one `related_title` (lines 2127-2135): every
concept whose title matches case-insensitively gets the problem title
appended to its `relatedConcepts` unless already present under a
case-SENSITIVE membership test (`concept["title"] not in ...`). -/
def backlinkOne (problemTitle relatedTitle : String) (cs : List PConcept) : List PConcept :=
  cs.map (fun rc =>
    if (pyLower rc.title) == (pyLower relatedTitle) then
      if rc.relatedConcepts.contains problemTitle then rc
      else { rc with relatedConcepts := rc.relatedConcepts ++ [problemTitle] }
    else rc)

/-- One iteration of the LeetCode fixing loop (lines 2102-2135) at
position `i` of the current (already partially mutated) list.  The
iteration over `concept["relatedConcepts"]` is modelled by folding over a
snapshot of the list; a self-referential entry that would extend the list
being iterated is outside the scope of the claims. -/
def leetcodeStep (cs : List PConcept) (i : Nat) : List PConcept :=
  match cs[i]? with
  | none => cs
  | some c =>
    if isLikelyLeetcode c && c.category != "LeetCode Problems" then
      let c' := { c with category := "LeetCode Problems" }
      let cs' := cs.set i c'
      if c'.relatedConcepts.isEmpty then cs'
      else c'.relatedConcepts.foldl (fun acc rt => backlinkOne c'.title rt acc) cs'
    else cs

/-- The whole LeetCode fixing loop: the list length is never changed, so
`for concept in concepts` visits the positions `0..len-1` of the
evolving list. -/
def leetcodeFix (cs : List PConcept) : List PConcept :=
  (List.range cs.length).foldl leetcodeStep cs

/-! ## Segmentation (`_segment_conversation`, lines 1284-1436) -/

/-- One raw segment of the segmentation response; fields hold the
`.get` defaults (`topic` default `"Uncategorized"`, `main_technique` and
`content` default `""`; an empty `content` and an absent one are both
falsy at the only read site). -/
structure RawSegment where
  topic : String := "Uncategorized"
  main_technique : String := ""
  content : String := ""

/-- The parsed segmentation JSON
(`conversation_type` default `"UNKNOWN"`, `segments` default `[]`). -/
structure SegmentationResp where
  conversation_type : String := "UNKNOWN"
  segments : List RawSegment := []

/-- Outcome of the segmentation LLM call: a `json.JSONDecodeError`
(first `except`), any other exception such as a transport failure (second
`except`), or parsed data. -/
inductive SegLLMOutcome where
  | parseError
  | transportError
  | ok (r : SegmentationResp)

/-- Topic tagging of lines 1402-1406. -/
def tagTopic (conversationType : String) (s : RawSegment) : String :=
  if conversationType == "PROBLEM_SOLVING" && s.main_technique != "" then
    "[" ++ conversationType ++ "] " ++ s.topic ++ " [TECHNIQUE:" ++ s.main_technique ++ "]"
  else
    "[" ++ conversationType ++ "] " ++ s.topic

/-- The segments kept by the validation loop (lines 1392-1410): segments
with non-empty content, tagged, in order. -/
def keptSegments (d : SegmentationResp) : List (String × String) :=
  d.segments.filterMap (fun s =>
    if s.content != "" then some (tagTopic d.conversation_type s, s.content) else none)

/-- `_segment_conversation` as a function of the input text and the LLM
outcome; total — every exception of the body is caught by the two
`except` clauses. -/
def segment_conversation (text : String) (resp : SegLLMOutcome) : List (String × String) :=
  match resp with
  | .parseError => [("Full Conversation", text)]
  | .transportError => [("Full Conversation", text)]
  | .ok d =>
    let kept := keptSegments d
    if kept.isEmpty then [("[UNKNOWN] Full Conversation", text)]
    else if kept.length > 5 then [("[UNKNOWN] Full Conversation", text)]
    else kept

/-! ## The orchestrator (`analyze_conversation`, lines 1957-2291) -/

/-- Metadata of an `AnalysisResult`.  The metadata dict of a single-pass
result is passed through unchanged from `_analyze_segment`, so its
content is kept abstract as a string; timestamp fields are omitted
throughout. -/
inductive MetaInfo where
  | fromSegment (passthrough : String)
  | simpleFallback (concept_count : Nat)
  | multipass (concept_count segment_count : Nat)
  | emergency (error : String)

/-- The analysis result dict.  `conversation_summary` is absent from the
multi-pass result and `conversation_title` only present on the pyservice
emergency fallback, hence the `Option`s. -/
structure AnalysisResult where
  concepts : List PConcept
  summary : String
  conversation_summary : Option String := none
  conversation_title : Option String := none
  metadata : MetaInfo

/-- Result dict of `_analyze_segment` as consumed by the orchestrator:
`concepts`, `summary` and `conversation_summary` are always set by
`_parse_structured_response` and by `_fallback_extraction`; the rest of
the metadata is an opaque passthrough. -/
structure SegOut where
  concepts : List PConcept := []
  summary : String := ""
  conversation_summary : String := ""
  metadata : String := ""

/-- External responses consumed by one `analyze_conversation` run:
the single-pass `_analyze_segment` call, the segmentation call, and the
per-segment `_analyze_segment` calls of the multi-pass fallback.  An
`.error` models an exception escaping the call (transport failure or the
`HTTPException` re-raised by `_parse_structured_response` on unexpected
parsing errors). -/
structure Oracle where
  singlePass : Except Unit SegOut
  segmentation : SegLLMOutcome
  perSeg : Nat → Except Unit SegOut

/-- `ConversationRequest`. The `context` and `category_guidance` dicts
and the `custom_api_key` are only forwarded to the LLM calls (absorbed by
the oracle), so their content is abstracted to optional strings. -/
structure Req where
  conversation_text : String
  context : Option String := none
  category_guidance : Option String := none
  custom_api_key : Option String := none

/-- Outcome of one orchestrator run: the returned result or the raised
`HTTPException` (`.error`), the cache afterwards, and the number of
external calls consumed. -/
structure AnalyzeOut where
  result : Except Unit AnalysisResult
  cache : List (String × AnalysisResult)
  calls : Nat

/-- `_generate_cache_key` (lines 204-208): the MD5 hex digest (parameter
`md5hex`) of the conversation text — and of nothing else. -/
def generate_cache_key (md5hex : String → String) (text : String) : String :=
  md5hex text

/-- The multi-pass per-segment loop (lines 2252-2261): analyze each
segment in order, tag each returned concept with its `source_topic`,
accumulate concepts and the `topic: summary` strings; the first raising
call aborts the loop (and the request).  Returns the accumulated data
and the number of per-segment calls consumed. -/
def runSegments (O : Oracle) : Nat → List (String × String) →
    Except Unit (List PConcept × List String) × Nat
  | _, [] => (.ok ([], []), 0)
  | i, (topic, _) :: rest =>
    match O.perSeg i with
    | .error _ => (.error (), 1)
    | .ok segRes =>
      match runSegments O (i + 1) rest with
      | (.error e, n) => (.error e, n + 1)
      | (.ok (cs, sums), n) =>
        (.ok ((segRes.concepts.map (fun c => { c with source_topic := topic })) ++ cs,
              (topic ++ ": " ++ segRes.summary) :: sums), n + 1)

/-- The hardcoded simple fallback result of the
`"contains duplicate" / "hash table"` branch (lines 2145-2245). -/
def containsDuplicateFallback (summary : String) : AnalysisResult :=
  { concepts := [
      { title := "Contains Duplicate",
        category := "LeetCode Problems",
        categoryPath := ["LeetCode Problems"],
        summary := "A problem that involves finding if an array contains any duplicate elements.",
        keyPoints := [
          "Use a hash table to track previously seen elements",
          "Time complexity is O(n) where n is the length of the array",
          "Space complexity is also O(n) in the worst case",
          "Early termination occurs as soon as the first duplicate is found"],
        details := .obj [
          ("implementation", .str "The Contains Duplicate problem asks us to determine if an array contains any duplicate elements. The most efficient approach uses a hash table (dictionary) to track elements we\x27ve seen.\n\nAs we iterate through the array, we check if each element already exists in our hash table. If it does, we\x27ve found a duplicate and return true. If we finish iterating without finding any duplicates, we return false.\n\nThis approach achieves O(n) time complexity compared to the naive O(n²) nested loop approach, trading some space efficiency for significant time optimization."),
          ("complexity", .obj [
            ("time", .str "O(n) where n is the length of the array"),
            ("space", .str "O(n) in the worst case, as we might need to store all elements in the hash table")]),
          ("useCases", .arr [
            .str "Checking for duplicate elements in arrays",
            .str "Data validation and integrity checks",
            .str "Preprocessing steps for algorithms requiring unique elements"]),
          ("edgeCases", .arr [
            .str "Empty arrays (return false, as there are no duplicates)",
            .str "Arrays with a single element (return false, as there can be no duplicates)",
            .str "Arrays with many duplicates (can return true early)"])],
        codeSnippets := [
          { language := "Python",
            description := "Hash table implementation",
            code := "def containsDuplicate(nums):\n    seen = \x7b\x7d  # Hash table to track elements\n    \n    for num in nums:\n        # If we\x27ve seen this number before, return True\n        if num in seen:\n            return True\n        # Otherwise, add it to our hash table\n        seen[num] = True\n    \n    # If we\x27ve checked all elements without finding duplicates\n    return False" },
          { language := "JavaScript",
            description := "Using Set for duplicate detection",
            code := "function containsDuplicate(nums) \x7b\n    const seen = new Set();\n    \n    for (const num of nums) \x7b\n        // If we\x27ve seen this number before, return true\n        if (seen.has(num)) \x7b\n            return true;\n        \x7d\n        // Otherwise, add it to our set\n        seen.add(num);\n    \x7d\n    \n    // If we\x27ve checked all elements without finding duplicates\n    return false;\n\x7d" }],
        relatedConcepts := ["Hash Table"],
        confidence_score := mkRat 19 20 },
      { title := "Hash Table",
        category := "Data Structure",
        categoryPath := ["Data Structure"],
        summary := "A data structure that maps keys to values using a hash function, enabling efficient lookups.",
        keyPoints := [
          "Provides O(1) average time complexity for lookups, insertions, and deletions",
          "Maps keys to values using a hash function",
          "Handles collisions through techniques like chaining or open addressing",
          "Essential for problems requiring fast element lookup or counting"],
        details := .obj [
          ("implementation", .str "Hash tables work by transforming a key into an array index using a hash function. This allows for direct access to values without needing to search through the entire data structure.\n\nWhen a collision occurs (two keys hash to the same index), it can be resolved using techniques like chaining (storing multiple values in linked lists at each index) or open addressing (finding an alternative slot in the array).\n\nIn problems like Contains Duplicate, hash tables enable O(1) lookups to quickly determine if an element has been seen before."),
          ("complexity", .obj [
            ("time", .str "Average: O(1) for lookups, insertions, and deletions. Worst case: O(n) if many collisions occur."),
            ("space", .str "O(n) where n is the number of key-value pairs stored")]),
          ("useCases", .arr [
            .str "Implementing dictionaries and maps",
            .str "Caching data for quick access",
            .str "Finding duplicates or counting occurrences",
            .str "Symbol tables in compilers and interpreters"])],
        codeSnippets := [
          { language := "Python",
            description := "Using dictionary as hash table",
            code := "# Create a hash table\nhash_table = \x7b\x7d\n\n# Insert a key-value pair\nhash_table[\"key1\"] = \"value1\"\n\n# Check if a key exists\nif \"key1\" in hash_table:\n    print(\"Key exists!\")\n\n# Get a value by key\nvalue = hash_table.get(\"key1\", \"default_value\")" }],
        relatedConcepts := ["Contains Duplicate"],
        confidence_score := mkRat 9 10 }],
    summary := summary,
    conversation_summary := some summary,
    metadata := .simpleFallback 2 }

/-- `analyze_conversation` (lines 1957-2291).  Cache lookup; single-pass
analysis; on at least one concept: single-pass dedup, technique
enrichment (at most 3 technique mini-concepts appended), per-concept
related-concepts dedup, LeetCode category fixing and back-linking, cache
store; on zero concepts with a contains-duplicate / hash-table summary:
the hardcoded fallback, cache store; otherwise the multi-pass fallback:
segmentation, per-segment analysis, tie-breaking dedup, cache store.
Any exception of the body reaches the `except` of lines 2289-2291 and is
re-raised as an `HTTPException` (`.error`). -/
def analyze_conversation (md5hex : String → String) (O : Oracle)
    (cache : List (String × AnalysisResult)) (req : Req) : AnalyzeOut :=
  let cache_key := generate_cache_key md5hex req.conversation_text
  match alookup cache cache_key with
  | some cached => ⟨.ok cached, cache, 0⟩
  | none =>
    match O.singlePass with
    | .error _ => ⟨.error (), cache, 1⟩
    | .ok sp =>
      if !sp.concepts.isEmpty then
        let deduped := dedupSinglePass sp.concepts
        let withTech := deduped ++ (buildTechniques deduped).take 3
        let related := withTech.map dedupRelated
        let finalConcepts := leetcodeFix related
        let result : AnalysisResult :=
          { concepts := finalConcepts,
            summary := sp.summary,
            conversation_summary := some sp.conversation_summary,
            metadata := .fromSegment sp.metadata }
        ⟨.ok result, aset cache cache_key result, 1⟩
      else
        let summary := sp.conversation_summary
        if strContains (pyLower summary) "contains duplicate" ||
            strContains (pyLower summary) "hash table" then
          let result := containsDuplicateFallback summary
          ⟨.ok result, aset cache cache_key result, 1⟩
        else
          let segments := segment_conversation req.conversation_text O.segmentation
          match runSegments O 0 segments with
          | (.error _, n) => ⟨.error (), cache, 2 + n⟩
          | (.ok (allConcepts, segmentSummaries), n) =>
            let dd := dedupTiebreak allConcepts
            let result : AnalysisResult :=
              { concepts := dd,
                summary := String.intercalate " | " segmentSummaries,
                metadata := .multipass dd.length segments.length }
            ⟨.ok result, aset cache cache_key result, 2 + n⟩

/-- The emergency fallback response of the pyservice variant
(`src/pyservice/concept_extractor.py`, lines 1626-1649), built by the
HTTP handler `extract_concepts` when any exception — including the
`HTTPException` raised by its `analyze_conversation` — reaches its
`except` clause. -/
def pyservice_emergency_fallback (errMsg : String) : AnalysisResult :=
  { concepts := [
      { title := "Programming Concept",
        category := "General",
        summary := "General programming discussion",
        keyPoints := ["Extracted from conversation"],
        details := .str "Programming concepts discussed in the conversation",
        relatedConcepts := [],
        confidence_score := mkRat 1 2 }],
    conversation_title := some "Programming Discussion",
    conversation_summary := some "Discussion about programming topics",
    summary := "Discussion about programming topics",
    metadata := .emergency errMsg }

/-! ## Category learning and normalization
(`CategoryLearning`, lines 79-180, and `_normalize_category`,
lines 385-587) -/

/-- One persisted learned mapping; the `confidence` and `updated_at`
fields are omitted (never read by category resolution). -/
structure LearnedMapping where
  content_preview : String
  old_category : String
  new_category : String

/-- `record_manual_update` (lines 110-133): key the store by the first
16 hex digits of the MD5 of the lowercased snippet (parameter `hash16`),
store the first 100 characters as the preview. -/
def record_manual_update (hash16 : String → String)
    (store : List (String × LearnedMapping))
    (snippet oldCat newCat : String) : List (String × LearnedMapping) :=
  aset store (hash16 (pyLower snippet))
    { content_preview := pyTake snippet 100,
      old_category := oldCat,
      new_category := newCat }

/-- `suggest_category_from_learning` (lines 135-164): first stored
mapping, in insertion order, whose lowercased preview is longer than 20
characters and shares at least 2 distinct words of length ≥ 4 with the
lowercased content. -/
def suggest_category_from_learning (store : List (String × LearnedMapping))
    (content : String) : Option String :=
  let cl := (pyLower content)
  (store.map Prod.snd).findSome? (fun m =>
    let preview := (pyLower m.content_preview)
    if preview != "" && preview.length > 20 then
      if overlapCount (wordSet preview) (wordSet cl) ≥ 2 then
        some m.new_category
      else none
    else none)

/-- The default category list of `_fetch_categories` (lines 222-288),
used when the categories endpoint is unavailable. -/
def defaultCategories : List String := [
  "Data Structures and Algorithms", "Data Structures", "Algorithms",
  "Algorithm Technique", "LeetCode Problems",
  "Backend Engineering", "Backend Engineering > Authentication",
  "Backend Engineering > Storage", "Backend Engineering > APIs",
  "Backend Engineering > Databases",
  "Frontend Engineering", "Frontend Engineering > React",
  "Frontend Engineering > Next.js", "Frontend Engineering > CSS",
  "Cloud Engineering", "Cloud Engineering > AWS", "DevOps",
  "JavaScript", "TypeScript", "Python",
  "System Design", "Machine Learning",
  "General", "Finance", "Finance > Investment", "Finance > Personal Finance",
  "Finance > Business Finance", "Finance > Stock Analysis",
  "Psychology", "Psychology > Behavioral", "Psychology > Cognitive",
  "Business", "Business > Strategy", "Business > Management",
  "Business > Marketing",
  "Health", "Health > Nutrition", "Health > Fitness",
  "Education", "Education > Learning Methods",
  "Science", "Science > Physics", "Science > Biology",
  "Philosophy", "History", "Politics", "Economics", "Arts", "Literature",
  "Travel", "Lifestyle", "Miscellaneous"]

/-- The static keyword → category map of `_normalize_category`
(lines 404-560), in source (= dict insertion) order. -/
def category_mapping : List (String × String) := [
  ("dsa", "Data Structures and Algorithms"),
  ("data structure", "Data Structures"),
  ("algorithm", "Algorithms"),
  ("technique", "Algorithm Technique"),
  ("leetcode", "LeetCode Problems"),
  ("coding challenge", "LeetCode Problems"),
  ("problem solving", "LeetCode Problems"),
  ("python", "Python"),
  ("sets in python", "Python"),
  ("python set", "Python"),
  ("python list", "Python"),
  ("python dict", "Python"),
  ("python string", "Python"),
  ("python tuple", "Python"),
  ("python class", "Python"),
  ("python function", "Python"),
  ("python module", "Python"),
  ("python package", "Python"),
  ("python syntax", "Python"),
  ("python feature", "Python"),
  ("python data structure", "Python"),
  ("python collection", "Python"),
  ("python standard library", "Python"),
  ("python built-in", "Python"),
  ("javascript", "JavaScript"),
  ("js", "JavaScript"),
  ("javascript array", "JavaScript"),
  ("javascript object", "JavaScript"),
  ("javascript function", "JavaScript"),
  ("javascript method", "JavaScript"),
  ("javascript syntax", "JavaScript"),
  ("es6", "JavaScript"),
  ("javascript feature", "JavaScript"),
  ("typescript", "TypeScript"),
  ("ts", "TypeScript"),
  ("typescript type", "TypeScript"),
  ("typescript interface", "TypeScript"),
  ("typescript generic", "TypeScript"),
  ("backend", "Backend Engineering"),
  ("api", "Backend Engineering > APIs"),
  ("rest", "Backend Engineering > APIs"),
  ("graphql", "Backend Engineering > APIs"),
  ("database", "Backend Engineering > Databases"),
  ("sql", "Backend Engineering > Databases"),
  ("nosql", "Backend Engineering > Databases"),
  ("auth", "Backend Engineering > Authentication"),
  ("storage", "Backend Engineering > Storage"),
  ("s3", "Backend Engineering > Storage"),
  ("frontend", "Frontend Engineering"),
  ("react", "Frontend Engineering > React"),
  ("next", "Frontend Engineering > Next.js"),
  ("css", "Frontend Engineering > CSS"),
  ("html", "Frontend Engineering"),
  ("cloud", "Cloud Engineering"),
  ("aws", "Cloud Engineering > AWS"),
  ("docker", "DevOps"),
  ("kubernetes", "DevOps"),
  ("devops", "DevOps"),
  ("system", "System Design"),
  ("ml", "Machine Learning"),
  ("ai", "Machine Learning"),
  ("machine learning", "Machine Learning"),
  ("artificial intelligence", "Machine Learning"),
  ("money", "Finance"),
  ("investment", "Finance > Investment"),
  ("investing", "Finance > Investment"),
  ("stock", "Finance > Stock Analysis"),
  ("stocks", "Finance > Stock Analysis"),
  ("trading", "Finance > Stock Analysis"),
  ("portfolio", "Finance > Investment"),
  ("budget", "Finance > Personal Finance"),
  ("budgeting", "Finance > Personal Finance"),
  ("savings", "Finance > Personal Finance"),
  ("retirement", "Finance > Personal Finance"),
  ("financial planning", "Finance > Personal Finance"),
  ("business finance", "Finance > Business Finance"),
  ("corporate finance", "Finance > Business Finance"),
  ("psychology", "Psychology"),
  ("behavior", "Psychology > Behavioral"),
  ("behavioral", "Psychology > Behavioral"),
  ("cognitive", "Psychology > Cognitive"),
  ("mental health", "Psychology"),
  ("therapy", "Psychology"),
  ("mindset", "Psychology"),
  ("business", "Business"),
  ("strategy", "Business > Strategy"),
  ("management", "Business > Management"),
  ("marketing", "Business > Marketing"),
  ("leadership", "Business > Management"),
  ("entrepreneurship", "Business > Strategy"),
  ("startup", "Business > Strategy"),
  ("health", "Health"),
  ("nutrition", "Health > Nutrition"),
  ("diet", "Health > Nutrition"),
  ("fitness", "Health > Fitness"),
  ("exercise", "Health > Fitness"),
  ("workout", "Health > Fitness"),
  ("wellness", "Health"),
  ("learning", "Education > Learning Methods"),
  ("education", "Education"),
  ("teaching", "Education"),
  ("study", "Education > Learning Methods"),
  ("academic", "Education"),
  ("science", "Science"),
  ("physics", "Science > Physics"),
  ("biology", "Science > Biology"),
  ("chemistry", "Science"),
  ("research", "Science"),
  ("philosophy", "Philosophy"),
  ("history", "History"),
  ("politics", "Politics"),
  ("government", "Politics"),
  ("economics", "Economics"),
  ("economy", "Economics"),
  ("literature", "Literature"),
  ("art", "Arts"),
  ("music", "Arts"),
  ("travel", "Travel"),
  ("lifestyle", "Lifestyle"),
  ("personal development", "Lifestyle"),
  ("self improvement", "Lifestyle"),
  ("productivity", "Lifestyle")]

/-- The keyword-map step (lines 563-569): first mapping entry, in source
order, whose keyword occurs in the lowercased suggestion and whose
mapped category matches a valid category case-insensitively (first such
valid category); a keyword whose mapped category is not valid is
skipped and scanning continues. -/
def categoryKeywordLookup (suggestedLower : String) (valid : List String) : Option String :=
  category_mapping.findSome? (fun kv =>
    if strContains suggestedLower kv.1 then
      valid.find? (fun v => (pyLower v) == pyLower kv.2)
    else none)

/-- The residual context-hint fallback (lines 577-587); always yields a
category, found in `valid_categories` or not. -/
def normalizeFallback (suggestedLower : String) : String :=
  if ["technical", "code", "programming", "algorithm", "software"].any
      (fun w => strContains suggestedLower w) then "General"
  else if ["business", "finance", "money", "investment"].any
      (fun w => strContains suggestedLower w) then "Finance"
  else if ["psychology", "mental", "behavior", "cognitive"].any
      (fun w => strContains suggestedLower w) then "Psychology"
  else if ["health", "fitness", "nutrition", "wellness"].any
      (fun w => strContains suggestedLower w) then "Health"
  else "General"

/-- `_normalize_category` (lines 385-587): falsy / UNCATEGORIZED guard,
exact match, case-insensitive match, static keyword map, learned-mapping
lookup (accepted only when the suggestion is truthy and in the valid
list), residual fallback.  A pure function: no model call on any path. -/
def normalize_category (store : List (String × LearnedMapping))
    (suggested : String) (valid : List String) : Option String :=
  if suggested == "" || (pyUpper suggested) == "UNCATEGORIZED" then none
  else if valid.contains suggested then some suggested
  else
    let sl := (pyLower suggested)
    match valid.find? (fun c => (pyLower c) == sl) with
    | some c => some c
    | none =>
      match categoryKeywordLookup sl valid with
      | some c => some c
      | none =>
        match suggest_category_from_learning store suggested with
        | some ls =>
          if ls != "" && valid.contains ls then some ls
          else some (normalizeFallback sl)
        | none => some (normalizeFallback sl)

/-! ## Fallback extraction (`_fallback_extraction`, lines 1184-1282) -/

/-- Metadata dict of a fallback result. -/
structure FallbackMeta where
  model_used : String := "gpt-4o"
  concept_count : Nat
  extraction_method : String := "enhanced_fallback"
  detected_domain : String

/-- Result dict of `_fallback_extraction`. -/
structure FallbackResult where
  concepts : List PConcept
  summary : String
  conversation_summary : String
  metadata : FallbackMeta

/-- Fallback category detection over the whole text
(lines 1195-1208). -/
def fallbackCategoryOf (text : String) : String :=
  let tl := (pyLower text)
  if ["investment", "finance", "money", "stock", "budget"].any
      (fun w => strContains tl w) then "Finance"
  else if ["psychology", "mental", "behavior", "cognitive"].any
      (fun w => strContains tl w) then "Psychology"
  else if ["business", "strategy", "management", "marketing"].any
      (fun w => strContains tl w) then "Business"
  else if ["health", "fitness", "nutrition", "wellness"].any
      (fun w => strContains tl w) then "Health"
  else if ["programming", "code", "algorithm", "software", "development"].any
      (fun w => strContains tl w) then "General"
  else "General"

/-- `re.search(r"Title:\s*(.*?)(?:\n|$)", s)` followed by `.strip()` of
the group: `none` when `Title:` does not occur in `s`; otherwise the text
after the first `Title:`, with leading whitespace dropped, cut at the
first newline, and trimmed. -/
def searchTitleLine (s : String) : Option String :=
  match afterFirst "Title:".toList s.toList with
  | none => none
  | some after =>
    some (pyStrip (String.mk
      ((after.dropWhile Char.isWhitespace).takeWhile (fun c => c != '\n'))))

/-- The concept built from one match of the outer pattern
`Title:\s*(.*?)(?=Title:|$)` (lines 1212-1233); `chunk` is the raw
captured group.  A chunk that is empty after stripping, or in which the
inner `Title:` search fails, contributes nothing. -/
def titleConcept (cat : String) (chunk : String) : Option PConcept :=
  let ct := pyStrip chunk
  if ct != "" then
    match searchTitleLine ct with
    | some title =>
      some { title := title,
             category := cat,
             categoryPath := [cat],
             summary := if ct.length > 200 then pyTake ct 200 ++ "..." else ct,
             details := .str ct,
             keyPoints := ["Extracted via fallback method",
                           "May require manual categorization"],
             relatedConcepts := [],
             confidence_score := mkRat 1 2 }
    | none => none
  else none

/-- Insight-indicating keywords of the sentence scan (lines 1247-1251). -/
def insightKeywordList : List String :=
  ["important", "key", "note", "remember", "crucial", "essential",
   "strategy", "approach", "method", "technique", "insight",
   "learn", "understand", "concept", "principle"]

/-- The basic-insight branch (lines 1236-1267): split the text on
`". "`, strip each sentence, keep those longer than 50 characters that
contain an insight keyword; when any remain, package the first 3 into a
single low-confidence concept (first 5 as key points). -/
def insightConcepts (cat text : String) : List PConcept :=
  let sentences := (pySplitOn text ". ").map pyStrip
  let insights := sentences.filter (fun s =>
    decide (s.length > 50) && insightKeywordList.any (fun w => strContains (pyLower s) w))
  if !insights.isEmpty then
    [{ title := "Key Insights",
       category := cat,
       categoryPath := [cat],
       summary := "Key insights extracted from the conversation.",
       details := .str (String.intercalate ". " (insights.take 3)),
       keyPoints := insights.take 5,
       relatedConcepts := [],
       confidence_score := mkRat 3 10 }]
  else []

/-- `_fallback_extraction` as a function of the unparseable model text
and of the list of captured groups that
`re.finditer(r"Title:\s*(.*?)(?=Title:|$)", text, re.DOTALL)` produces on
it (the regex engine is external; the function is total in both). -/
def fallback_extraction (text : String) (titleChunks : List String) : FallbackResult :=
  let cat := fallbackCategoryOf text
  let titleCs := titleChunks.filterMap (titleConcept cat)
  let concepts := if titleCs.isEmpty then insightConcepts cat text else titleCs
  { concepts := concepts,
    summary := "Extracted using enhanced fallback method with domain-aware categorization",
    conversation_summary := "Discussion covering " ++ (pyLower cat) ++ " concepts",
    metadata := { concept_count := concepts.length, detected_domain := cat } }

/-! ## Claim C5 — segmentation bounds and fail-open behaviour -/

/-- C5: for every segmentation call, empty-content segments are dropped
(every returned pre-collapse segment has non-empty content, and when the
kept count is between 1 and 5 the result is exactly the kept list); the
returned list always has between 1 and 5 segments; a kept count of 0 or
more than 5 collapses to the single `[UNKNOWN] Full Conversation`
segment covering the whole input; a parse or transport failure yields
the single `Full Conversation` segment covering the whole input; the
function is total, so segmentation never raises. -/
theorem claim5_segment_bounds (text : String) (resp : SegLLMOutcome) :
    (1 ≤ (segment_conversation text resp).length ∧
      (segment_conversation text resp).length ≤ 5) ∧
    (∀ d, resp = SegLLMOutcome.ok d →
      ((keptSegments d).length = 0 ∨ 5 < (keptSegments d).length →
        segment_conversation text resp = [("[UNKNOWN] Full Conversation", text)]) ∧
      (1 ≤ (keptSegments d).length → (keptSegments d).length ≤ 5 →
        segment_conversation text resp = keptSegments d) ∧
      (∀ p ∈ keptSegments d, p.2 ≠ "")) ∧
    ((resp = SegLLMOutcome.parseError ∨ resp = SegLLMOutcome.transportError) →
      segment_conversation text resp = [("Full Conversation", text)]) := by
  cases resp with
  | parseError =>
    refine ⟨⟨by simp [segment_conversation], by simp [segment_conversation]⟩,
      ?_, fun _ => rfl⟩
    intro d hd
    exact nomatch hd
  | transportError =>
    refine ⟨⟨by simp [segment_conversation], by simp [segment_conversation]⟩,
      ?_, fun _ => rfl⟩
    intro d hd
    exact nomatch hd
  | ok d =>
    have hmem : ∀ p ∈ keptSegments d, p.2 ≠ "" := by
      intro p hp
      simp only [keptSegments, List.mem_filterMap] at hp
      obtain ⟨s, _, heq⟩ := hp
      split at heq
      · next hcond =>
          cases heq
          simpa using hcond
      · simp at heq
    refine ⟨?_, ?_, by rintro (h | h) <;> cases h⟩
    · cases hk : keptSegments d with
      | nil => simp [segment_conversation, hk]
      | cons a t =>
        simp only [segment_conversation, hk, List.isEmpty_cons, Bool.false_eq_true,
          if_false]
        by_cases h2 : (a :: t).length > 5
        · rw [if_pos h2]
          simp
        · rw [if_neg h2]
          constructor
          · simp
          · omega
    · rintro d' hd
      injection hd with hd'
      subst hd'
      refine ⟨?_, ?_, hmem⟩
      · intro hcase
        cases hk : keptSegments d with
        | nil => simp [segment_conversation, hk]
        | cons a t =>
          rw [hk] at hcase
          rcases hcase with h | h
          · simp at h
          · simp only [segment_conversation, hk, List.isEmpty_cons,
              Bool.false_eq_true, if_false]
            rw [if_pos h]
      · intro hlo hhi
        cases hk : keptSegments d with
        | nil => rw [hk] at hlo; simp at hlo
        | cons a t =>
          rw [hk] at hhi
          simp only [segment_conversation, hk, List.isEmpty_cons,
            Bool.false_eq_true, if_false]
          rw [if_neg (by omega)]

/-- A concrete segmentation response: one problem-solving segment with
content, one empty-content segment. -/
def claim5Data : SegmentationResp :=
  { conversation_type := "PROBLEM_SOLVING",
    segments := [
      { topic := "T", main_technique := "Hash Table", content := "c1" },
      { topic := "U", main_technique := "", content := "" }] }

/-- Witness for C5: on `claim5Data` the kept count is 1, so the result
is exactly the kept (tagged, non-empty-content) list; on a parse error
it is the single full-conversation segment. -/
theorem claim5_segment_bounds_witness :
    segment_conversation "txt" (SegLLMOutcome.ok claim5Data) = keptSegments claim5Data ∧
    segment_conversation "txt" SegLLMOutcome.parseError = [("Full Conversation", "txt")] :=
  ⟨((claim5_segment_bounds "txt" (SegLLMOutcome.ok claim5Data)).2.1 claim5Data rfl).2.1
      (by decide) (by decide),
    (claim5_segment_bounds "txt" SegLLMOutcome.parseError).2.2 (Or.inl rfl)⟩

/-! ## Claim C6 — fallback extraction totality and low confidence -/

/-- C6: for every input string and every list of captured `Title:`
groups, the fallback extractor returns a well-formed result — a concepts
list (possibly empty), a non-empty summary, and metadata whose
`concept_count` matches and whose `extraction_method` is
`enhanced_fallback` — without raising (the function is total); every
concept it produces is low-confidence: confidence 1/2 (0.5) for every
Title-marker concept, 3/10 (0.3) for the keyword-insight concept. -/
theorem claim6_fallback_total (text : String) (chunks : List String) :
    (∀ c ∈ (fallback_extraction text chunks).concepts,
        c.confidence_score = mkRat 1 2 ∨ c.confidence_score = mkRat 3 10) ∧
    (∀ c ∈ chunks.filterMap (titleConcept (fallbackCategoryOf text)),
        c.confidence_score = mkRat 1 2) ∧
    (∀ c ∈ insightConcepts (fallbackCategoryOf text) text,
        c.confidence_score = mkRat 3 10) ∧
    (fallback_extraction text chunks).metadata.concept_count =
        (fallback_extraction text chunks).concepts.length ∧
    (fallback_extraction text chunks).metadata.extraction_method = "enhanced_fallback" ∧
    (fallback_extraction text chunks).summary ≠ "" := by
  have htitle : ∀ c ∈ chunks.filterMap (titleConcept (fallbackCategoryOf text)),
      c.confidence_score = mkRat 1 2 := by
    intro c hc
    simp only [List.mem_filterMap] at hc
    obtain ⟨chunk, _, heq⟩ := hc
    by_cases h1 : (pyStrip chunk != "") = true
    · cases hsc : searchTitleLine (pyStrip chunk) with
      | none => simp [titleConcept, h1, hsc] at heq
      | some title =>
        simp only [titleConcept, h1, hsc, if_true] at heq
        injection heq with h2
        subst h2
        rfl
    · simp [titleConcept, h1] at heq
  have hinsight : ∀ c ∈ insightConcepts (fallbackCategoryOf text) text,
      c.confidence_score = mkRat 3 10 := by
    intro c hc
    simp only [insightConcepts] at hc
    split at hc
    · simp only [List.mem_singleton] at hc
      subst hc
      rfl
    · simp at hc
  refine ⟨?_, htitle, hinsight, rfl, rfl, by simp [fallback_extraction]⟩
  intro c hc
  have : (fallback_extraction text chunks).concepts =
      (if (chunks.filterMap (titleConcept (fallbackCategoryOf text))).isEmpty then
        insightConcepts (fallbackCategoryOf text) text
      else chunks.filterMap (titleConcept (fallbackCategoryOf text))) := rfl
  rw [this] at hc
  split at hc
  · exact Or.inr (hinsight c hc)
  · exact Or.inl (htitle c hc)

/-- The single concept produced by the fallback extractor on the
concrete chunk of the witness below. -/
def claim6Concept : PConcept :=
  { title := "Greedy",
    category := "General",
    categoryPath := ["General"],
    summary := "Title: Greedy\nBody",
    details := .str "Title: Greedy\nBody",
    keyPoints := ["Extracted via fallback method",
                  "May require manual categorization"],
    relatedConcepts := [],
    confidence_score := mkRat 1 2 }

/-- Witness for C6: on a concrete unparseable text with one captured
group the extractor yields exactly `claim6Concept`, and the theorem
applied to it gives its low confidence. -/
theorem claim6_fallback_total_witness :
    (fallback_extraction "some text" ["Title: Greedy\nBody"]).concepts = [claim6Concept] ∧
    (claim6Concept.confidence_score = mkRat 1 2 ∨ claim6Concept.confidence_score = mkRat 3 10) := by
  have he : (fallback_extraction "some text" ["Title: Greedy\nBody"]).concepts =
      [claim6Concept] := rfl
  refine ⟨he, (claim6_fallback_total "some text" ["Title: Greedy\nBody"]).1 claim6Concept ?_⟩
  rw [he]
  exact List.mem_singleton.mpr rfl

/-! ## Claim C8 — normalization on already-valid categories -/

/-- C8 counterexample: the claim quantifies over every string that is a
member of the valid-categories list, but the falsy/`UNCATEGORIZED` guard
of `_normalize_category` runs before the exact-match step, so the member
`"UNCATEGORIZED"` of the valid list `["UNCATEGORIZED"]` resolves to
`None`, not to itself. -/
theorem claim8_uncategorized_counterexample :
    normalize_category [] "UNCATEGORIZED" ["UNCATEGORIZED"] = none ∧
    ("UNCATEGORIZED" : String) ∈ ["UNCATEGORIZED"] :=
  ⟨rfl, by simp⟩

/-- C8 amended: for every string `x` in the valid-categories list other
than the empty string and (case-insensitively) `"UNCATEGORIZED"`, the
exact-match step returns `x` itself, and therefore normalization is
idempotent on such `x`. -/
theorem claim8_normalize_identity (store : List (String × LearnedMapping))
    (x : String) (valid : List String)
    (hmem : x ∈ valid) (hne : x ≠ "") (hup : pyUpper x ≠ "UNCATEGORIZED") :
    normalize_category store x valid = some x ∧
    (normalize_category store x valid).bind
        (fun y => normalize_category store y valid) =
      normalize_category store x valid := by
  have hcond : (x == "" || pyUpper x == "UNCATEGORIZED") = false := by
    simp [hne, hup]
  have hcont : valid.contains x = true := by
    simpa using hmem
  have h1 : normalize_category store x valid = some x := by
    unfold normalize_category
    rw [hcond]
    simp [hcont, hmem]
  refine ⟨h1, ?_⟩
  rw [h1]
  simpa using h1

/-- Witness for C8 (amended): the valid category `"Python"` of the
default taxonomy normalizes to itself, idempotently. -/
theorem claim8_normalize_identity_witness :
    normalize_category [] "Python" defaultCategories = some "Python" ∧
    (normalize_category [] "Python" defaultCategories).bind
        (fun y => normalize_category [] y defaultCategories) =
      normalize_category [] "Python" defaultCategories :=
  claim8_normalize_identity [] "Python" defaultCategories
    (by decide) (by decide) (by decide)

/-! ## Claim C7 — learned-mapping lookup -/

/-- Store after
`recordCorrection("stock portfolio diversification strategies for retirement", "General", "Finance")`
(the hash function is a parameter of the model; collisions play no role
here). -/
def claim7Store : List (String × LearnedMapping) :=
  record_manual_update (fun _ => "k0") []
    "stock portfolio diversification strategies for retirement" "General" "Finance"

/-- C7 counterexample: the learned-mapping lookup is only step (4) of
the resolution order, so it does not govern *every* later resolution
with ≥ 2 overlapping significant words.  The examined content
`"stock portfolio diversification"` shares 3 significant words with the
stored correction's preview and the recorded category `"Finance"` is
valid, yet resolution returns `"Finance > Stock Analysis"`: the static
keyword map (step 3) fires first on the keyword `"stock"`. -/
theorem claim7_learned_preempted_counterexample :
    suggest_category_from_learning claim7Store "stock portfolio diversification" =
      some "Finance" ∧
    ("Finance" : String) ∈ defaultCategories ∧
    normalize_category claim7Store "stock portfolio diversification" defaultCategories =
      some "Finance > Stock Analysis" ∧
    "Finance > Stock Analysis" ≠ "Finance" :=
  ⟨rfl, by decide, rfl, by decide⟩

/-- C7 amended: after a correction is recorded, a later category
resolution resolves to the recorded new category without any model call
(`normalize_category` is a pure function) provided no earlier resolution
step fires: the examined string is truthy and not `UNCATEGORIZED`, is
not an exact or case-insensitive member of the valid list, no static
keyword matches, and the learned lookup (≥ 2 significant shared words
with a stored preview longer than 20 characters) returns the recorded
category, which is non-empty and in the valid list. -/
theorem claim7_learned_lookup (store : List (String × LearnedMapping))
    (suggested : String) (valid : List String) (c : String)
    (hne : (suggested == "" || pyUpper suggested == "UNCATEGORIZED") = false)
    (hexact : valid.contains suggested = false)
    (hci : valid.find? (fun v => pyLower v == pyLower suggested) = none)
    (hkw : categoryKeywordLookup (pyLower suggested) valid = none)
    (hl : suggest_category_from_learning store suggested = some c)
    (hcne : c ≠ "") (hcv : valid.contains c = true) :
    normalize_category store suggested valid = some c := by
  unfold normalize_category
  rw [hne]
  simp only [Bool.false_eq_true, if_false]
  have hnm : suggested ∉ valid := by simpa using hexact
  have hcmem : c ∈ valid := by simpa using hcv
  rw [if_neg (by simpa using hexact)]
  rw [hci, hkw, hl]
  simp [hcne, hcv, hcmem]

/-- Store after
`recordCorrection("zebra quokka wandering around meadows happily", "General", "Finance")`;
chosen so that no earlier resolution rule fires on the witness's
content. -/
def claim7WitnessStore : List (String × LearnedMapping) :=
  record_manual_update (fun _ => "k1") []
    "zebra quokka wandering around meadows happily" "General" "Finance"

/-- Witness for C7 (amended): the content
`"zebra quokka wandering"` shares 3 significant words with the recorded
preview, no earlier rule fires, and resolution returns the recorded
`"Finance"`. -/
theorem claim7_learned_lookup_witness :
    normalize_category claim7WitnessStore "zebra quokka wandering" defaultCategories =
      some "Finance" :=
  claim7_learned_lookup claim7WitnessStore "zebra quokka wandering" defaultCategories
    "Finance" (by decide) (by decide) rfl rfl rfl (by decide) (by decide)

/-! ## Claim C9 — per-concept isolation in response processing -/

/-- C9 amended: concept processing is per-concept — the processed output
of a concatenation is the concatenation of the processed outputs, so a
failing concept affects no other element of the array; and a concept
whose main processing fails is downgraded to the minimal-fields concept
exactly when the dict at the moment of the raise has a `title` key
(possibly backfilled before the failure point) and the recovery block's
eager `details[:100]` slice succeeds. -/
theorem claim9_isolation (dumps pystr : JVal → String) (cs : String) :
    (∀ l₁ l₂ : List JVal,
      processConcepts dumps pystr cs (l₁ ++ l₂) =
        processConcepts dumps pystr cs l₁ ++ processConcepts dumps pystr cs l₂) ∧
    (∀ c o d, mainProcess dumps pystr cs c = .error (.obj o) →
      hasKey o "title" = true →
      pySlice100 (jgetD o "details" (.str "")) = some d →
      processOneConcept dumps pystr cs c = some (minimalRecovery o d)) := by
  constructor
  · intro l₁ l₂
    induction l₁ with
    | nil => rfl
    | cons c rest ih =>
      cases h : processOneConcept dumps pystr cs c with
      | some p =>
        simp only [List.cons_append, processConcepts, h, List.append_eq]
        rw [ih]
      | none =>
        simp only [List.cons_append, processConcepts, h, List.append_eq]
        exact ih
  · intro c o d herr htitle hslice
    unfold processOneConcept
    rw [herr]
    simp [recoverConcept, htitle, hslice]

/-- A well-formed concept dict. -/
def claim9Good : JVal :=
  .obj [("title", .str "Good Concept"), ("category", .str "General"),
        ("summary", .str "fine"), ("details", .str "all good")]

/-- A malformed concept dict without a title: its non-string `category`
raises in the `categoryPath` backfill, before the `title` backfill. -/
def claim9Malformed : JVal := .obj [("category", .num 5)]

/-- A malformed concept dict with a title (same failure point). -/
def claim9TitledMalformed : JVal :=
  .obj [("title", .str "T"), ("category", .num 5)]

/-- Witness for C9 (amended): concatenation splits around the failing
concept, and the titled malformed concept is downgraded to the
minimal-fields concept. -/
theorem claim9_isolation_witness :
    processConcepts (fun _ => "") (fun _ => "") ""
        ([claim9Good] ++ [claim9TitledMalformed]) =
      processConcepts (fun _ => "") (fun _ => "") "" [claim9Good] ++
        processConcepts (fun _ => "") (fun _ => "") "" [claim9TitledMalformed] ∧
    processOneConcept (fun _ => "") (fun _ => "") "" claim9TitledMalformed =
      some (minimalRecovery [("title", .str "T"), ("category", .num 5)] (.str "")) :=
  ⟨(claim9_isolation (fun _ => "") (fun _ => "") "").1 [claim9Good] [claim9TitledMalformed],
   (claim9_isolation (fun _ => "") (fun _ => "") "").2 claim9TitledMalformed
     [("title", .str "T"), ("category", .num 5)] (.str "") rfl rfl rfl⟩

/-- C9 counterexample: a single malformed concept object (non-string
`category`, no `title`) fails processing and is discarded entirely — it
is NOT downgraded to a minimal-fields concept (the recovery block
requires a `title` key) — while the other concept of the array is still
processed. -/
theorem claim9_dropped_counterexample :
    mainProcess (fun _ => "") (fun _ => "") "" claim9Malformed = .error claim9Malformed ∧
    processConcepts (fun _ => "") (fun _ => "") "" [claim9Malformed] = [] ∧
    processConcepts (fun _ => "") (fun _ => "") "" [claim9Good, claim9Malformed] =
      processConcepts (fun _ => "") (fun _ => "") "" [claim9Good] ∧
    (processConcepts (fun _ => "") (fun _ => "") "" [claim9Good]).length = 1 :=
  ⟨rfl, rfl, rfl, rfl⟩

/-! ## Claim C4 — related-concepts case-insensitive uniqueness -/

/-- Invariants of the case-insensitive first-occurrence filter, for any
set of already-seen lowercased entries. -/
theorem dedupCIGo_spec (l : List String) : ∀ seen : List String,
    (dedupCIGo seen l).Sublist l ∧
    (∀ y ∈ dedupCIGo seen l, pyLower y ∉ seen) ∧
    ((dedupCIGo seen l).map pyLower).Nodup ∧
    (∀ x ∈ l, pyLower x ∈ seen ∨
      ∃ y ∈ dedupCIGo seen l, pyLower y = pyLower x) := by
  induction l with
  | nil =>
    intro seen
    exact ⟨List.nil_sublist _, by simp [dedupCIGo], by simp [dedupCIGo], by simp⟩
  | cons x rest ih =>
    intro seen
    by_cases hx : seen.contains (pyLower x)
    · have hgo : dedupCIGo seen (x :: rest) = dedupCIGo seen rest := by
        simp only [dedupCIGo, hx, if_true]
      obtain ⟨h1, h2, h3, h4⟩ := ih seen
      rw [hgo]
      refine ⟨h1.cons x, h2, h3, ?_⟩
      intro z hz
      rcases List.mem_cons.mp hz with hz | hz
      · subst hz
        exact Or.inl (by simpa using hx)
      · exact h4 z hz
    · have hx' : seen.contains (pyLower x) = false := by simpa using hx
      have hgo : dedupCIGo seen (x :: rest) =
          x :: dedupCIGo (pyLower x :: seen) rest := by
        simp only [dedupCIGo, hx', Bool.false_eq_true, if_false]
      obtain ⟨h1, h2, h3, h4⟩ := ih (pyLower x :: seen)
      rw [hgo]
      have hxs : pyLower x ∉ seen := by simpa using hx
      refine ⟨h1.cons₂ x, ?_, ?_, ?_⟩
      · intro y hy
        rcases List.mem_cons.mp hy with hy | hy
        · subst hy
          exact hxs
        · exact fun hmem => h2 y hy (List.mem_cons_of_mem _ hmem)
      · refine List.nodup_cons.mpr ⟨?_, h3⟩
        intro hmem
        rcases List.mem_map.mp hmem with ⟨y, hy, hyx⟩
        exact h2 y hy (hyx ▸ List.mem_cons_self _ _)
      · intro z hz
        rcases List.mem_cons.mp hz with hz | hz
        · subst hz
          exact Or.inr ⟨z, List.mem_cons_self _ _, rfl⟩
        · rcases h4 z hz with hs | ⟨y, hy, hyz⟩
          · rcases List.mem_cons.mp hs with hs | hs
            · exact Or.inr ⟨x, List.mem_cons_self _ _, hs.symm⟩
            · exact Or.inl hs
          · exact Or.inr ⟨y, List.mem_cons_of_mem _ hy, hyz⟩

/-- C4 amended: the related-concepts dedup step (lines 2093-2099)
produces a list with no two case-insensitively equal entries, preserving
first-seen order (the output is a sublist keeping, for each lowercased
value, its first occurrence); the subsequent LeetCode back-linking
(lines 2126-2135) appends the problem title under a case-SENSITIVE
membership test, so a concept of the final single-pass result can end
up with two case-insensitively equal entries
(`claim4_related_dup_counterexample`). -/
theorem claim4_relatedDedup_unique (l : List String) :
    ((dedupCI l).map pyLower).Nodup ∧
    (dedupCI l).Sublist l ∧
    ∀ x ∈ l, ∃ y ∈ dedupCI l, pyLower y = pyLower x := by
  obtain ⟨h1, _, h3, h4⟩ := dedupCIGo_spec l []
  exact ⟨h3, h1, fun x hx => (h4 x hx).resolve_left (by simp)⟩

/-- Witness for C4 (amended): a concrete dedup run. -/
theorem claim4_relatedDedup_unique_witness :
    dedupCI ["A", "a", "B"] = ["A", "B"] ∧
    ((dedupCI ["A", "a", "B"]).map pyLower).Nodup ∧
    (dedupCI ["A", "a", "B"]).Sublist ["A", "a", "B"] :=
  ⟨rfl, (claim4_relatedDedup_unique ["A", "a", "B"]).1,
    (claim4_relatedDedup_unique ["A", "a", "B"]).2.1⟩

/-- A single-pass analysis outcome with two concepts whose
`relatedConcepts` reference each other with different letter case. -/
def claim4Oracle : Oracle :=
  { singlePass := .ok
      { concepts := [
          { title := "Two Sum", category := "General",
            summary := "a leetcode problem",
            relatedConcepts := ["Hash Table"], confidence_score := mkRat 9 10 },
          { title := "Hash Table", category := "General", summary := "",
            relatedConcepts := ["two sum"], confidence_score := mkRat 4 5 }],
        summary := "s", conversation_summary := "cs", metadata := "m" },
    segmentation := SegLLMOutcome.parseError,
    perSeg := fun _ => .error () }

/-- C4 counterexample: in the final analysis result of this run the
`Hash Table` concept's `relatedConcepts` is `["two sum", "Two Sum"]` —
two entries that are equal case-insensitively.  The dedup step ran
first; the LeetCode back-link then appended the problem title `"Two
Sum"` because its case-sensitive membership test does not see
`"two sum"`. -/
theorem claim4_related_dup_counterexample :
    ((analyze_conversation (fun s => s) claim4Oracle []
          { conversation_text := "t" }).result.map
        (fun r => r.concepts.map (fun c => c.relatedConcepts))) =
      .ok [["Hash Table"], ["two sum", "Two Sum"]] ∧
    ("two sum" : String) ≠ "Two Sum" ∧
    pyLower "two sum" = pyLower "Two Sum" :=
  ⟨rfl, by decide, rfl⟩

/-! ## Claims C2 / C10 — result cache -/

/-- Every successful (`.ok`) run of the orchestrator leaves its returned
result stored in the cache under the key generated from the
conversation text: all three success branches end with
`self.cache[cache_key] = result; return result`. -/
theorem analyze_ok_stores (md5hex : String → String) (O : Oracle)
    (cache : List (String × AnalysisResult)) (req : Req) (r : AnalysisResult)
    (st : List (String × AnalysisResult)) (n : Nat)
    (h : analyze_conversation md5hex O cache req = ⟨.ok r, st, n⟩) :
    alookup st (generate_cache_key md5hex req.conversation_text) = some r := by
  simp only [analyze_conversation] at h
  split at h
  · next cached heq =>
    simp only [AnalyzeOut.mk.injEq, Except.ok.injEq] at h
    obtain ⟨h1, h2, h3⟩ := h
    subst h2
    rw [heq, h1]
  · next heq =>
    split at h
    · next herr =>
      simp only [AnalyzeOut.mk.injEq] at h
      exact absurd h.1 (by simp)
    · next sp hsp =>
      split at h
      · simp only [AnalyzeOut.mk.injEq, Except.ok.injEq] at h
        obtain ⟨h1, h2, h3⟩ := h
        subst h2
        exact h1 ▸ alookup_aset_self _ _ _
      · split at h
        · simp only [AnalyzeOut.mk.injEq, Except.ok.injEq] at h
          obtain ⟨h1, h2, h3⟩ := h
          subst h2
          exact h1 ▸ alookup_aset_self _ _ _
        · split at h
          · simp only [AnalyzeOut.mk.injEq] at h
            exact absurd h.1 (by simp)
          · simp only [AnalyzeOut.mk.injEq, Except.ok.injEq] at h
            obtain ⟨h1, h2, h3⟩ := h
            subst h2
            exact h1 ▸ alookup_aset_self _ _ _

/-- C2: if a first call of `analyze_conversation` on a request returns a
result, a second call with identical conversation text returns the very
same result (equal results), is served from the cache (the cache is
unchanged) and consumes zero external model calls — regardless of what
the model would answer the second time (`O2` is arbitrary). -/
theorem claim2_second_call_cached (md5hex : String → String) (O1 O2 : Oracle)
    (cache : List (String × AnalysisResult)) (req : Req) (r : AnalysisResult)
    (st : List (String × AnalysisResult)) (n : Nat)
    (h : analyze_conversation md5hex O1 cache req = ⟨.ok r, st, n⟩) :
    analyze_conversation md5hex O2 st req = ⟨.ok r, st, 0⟩ := by
  have hc := analyze_ok_stores md5hex O1 cache req r st n h
  simp only [analyze_conversation]
  rw [hc]

/-- Oracle of the C2 witness: the single pass yields no concepts, so the
first call goes through the multi-pass fallback. -/
def claim2Oracle : Oracle :=
  { singlePass := .ok
      { concepts := [], summary := "x", conversation_summary := "nothing here",
        metadata := "m" },
    segmentation := SegLLMOutcome.parseError,
    perSeg := fun _ => .ok
      { concepts := [], summary := "s", conversation_summary := "", metadata := "" } }

/-- The result the first C2 witness call computes and caches. -/
def claim2Result : AnalysisResult :=
  { concepts := [], summary := "Full Conversation: s", metadata := .multipass 0 1 }

/-- Witness for C2: the concrete first call returns `claim2Result` in 3
external calls; the second call returns the same result from the cache
with 0 calls. -/
theorem claim2_second_call_cached_witness :
    analyze_conversation (fun _ => "k") claim2Oracle [("k", claim2Result)]
        { conversation_text := "t" } =
      ⟨.ok claim2Result, [("k", claim2Result)], 0⟩ :=
  claim2_second_call_cached (fun _ => "k") claim2Oracle claim2Oracle []
    { conversation_text := "t" } claim2Result [("k", claim2Result)] 3 rfl

/-- C10: the cache key is the digest of `conversation_text` alone
(`generate_cache_key` reads no other request field), so after a
successful first call any second request with the same conversation
text — arbitrary `context`, `category_guidance` and `custom_api_key` —
is answered with the cached result of the first request: those fields
have no effect on a cache-hit response. -/
theorem claim10_cache_ignores_fields (md5hex : String → String) (O1 O2 : Oracle)
    (cache : List (String × AnalysisResult)) (req1 req2 : Req) (r : AnalysisResult)
    (st : List (String × AnalysisResult)) (n : Nat)
    (h : analyze_conversation md5hex O1 cache req1 = ⟨.ok r, st, n⟩)
    (htext : req2.conversation_text = req1.conversation_text) :
    analyze_conversation md5hex O2 st req2 = ⟨.ok r, st, 0⟩ := by
  have hc := analyze_ok_stores md5hex O1 cache req1 r st n h
  simp only [analyze_conversation, htext]
  rw [hc]

/-- Oracle of the C10 witness. -/
def claim10Oracle : Oracle :=
  { singlePass := .ok
      { concepts := [], summary := "x", conversation_summary := "nothing here",
        metadata := "m" },
    segmentation := SegLLMOutcome.parseError,
    perSeg := fun _ => .ok
      { concepts := [], summary := "s", conversation_summary := "", metadata := "" } }

/-- Result of the C10 witness's first call. -/
def claim10Result : AnalysisResult :=
  { concepts := [], summary := "Full Conversation: s", metadata := .multipass 0 1 }

/-- Witness for C10: the second request has a different context,
category guidance and custom API key but the same text, and is answered
with the first call's cached result, with zero external calls. -/
theorem claim10_cache_ignores_fields_witness :
    analyze_conversation (fun _ => "k") claim10Oracle [("k", claim10Result)]
        { conversation_text := "t", context := some "other context",
          category_guidance := some "other guidance",
          custom_api_key := some "other key" } =
      ⟨.ok claim10Result, [("k", claim10Result)], 0⟩ :=
  claim10_cache_ignores_fields (fun _ => "k") claim10Oracle claim10Oracle []
    { conversation_text := "t" }
    { conversation_text := "t", context := some "other context",
      category_guidance := some "other guidance",
      custom_api_key := some "other key" }
    claim10Result [("k", claim10Result)] 3 rfl rfl

/-! ## Claim C1 — error propagation vs. emergency result -/

/-- Oracle whose single-pass analysis raises. -/
def claim1Oracle : Oracle :=
  { singlePass := .error (),
    segmentation := SegLLMOutcome.parseError,
    perSeg := fun _ => .error () }

/-- C1 counterexample: in the domain-routed variant
(`src/api/v1/extract_concepts.py`) an uncaught pipeline exception is NOT
converted into an emergency result: `analyze_conversation` re-raises it
as an `HTTPException(500)` (modelled `.error`), propagating the error to
the caller instead of returning a single-concept emergency
`AnalysisResult`. -/
theorem claim1_propagates_counterexample :
    (analyze_conversation (fun s => s) claim1Oracle []
        { conversation_text := "boom" }).result = .error () :=
  rfl

/-- C1 amended: on any cache miss whose single-pass analysis raises, the
domain-routed orchestrator propagates the error (HTTP 500) to the
caller; the structurally valid single-concept emergency response of the
claim exists only in the sibling pyservice variant
(`src/pyservice/concept_extractor.py`), whose HTTP handler builds
`pyservice_emergency_fallback` — one non-empty-titled concept with
confidence 0.5 and a conversation title — inside its `except` clause. -/
theorem claim1_error_propagation :
    (∀ (md5hex : String → String) (O : Oracle)
        (cache : List (String × AnalysisResult)) (req : Req),
      alookup cache (generate_cache_key md5hex req.conversation_text) = none →
      O.singlePass = .error () →
      (analyze_conversation md5hex O cache req).result = .error ()) ∧
    (∀ e, (pyservice_emergency_fallback e).concepts.length = 1 ∧
      (pyservice_emergency_fallback e).conversation_title =
        some "Programming Discussion" ∧
      ∀ c ∈ (pyservice_emergency_fallback e).concepts,
        c.title ≠ "" ∧ c.confidence_score = mkRat 1 2) := by
  constructor
  · intro md5hex O cache req hnone herr
    simp only [analyze_conversation, hnone, herr]
  · intro e
    refine ⟨rfl, rfl, ?_⟩
    intro c hc
    simp only [pyservice_emergency_fallback, List.mem_singleton] at hc
    subst hc
    exact ⟨by decide, rfl⟩

/-- Witness for C1 (amended): a concrete erroring run propagates, and
the pyservice emergency response is a single concept. -/
theorem claim1_error_propagation_witness :
    (analyze_conversation (fun s => s) claim1Oracle []
        { conversation_text := "w" }).result = .error () ∧
    (pyservice_emergency_fallback "E").concepts.length = 1 :=
  ⟨claim1_error_propagation.1 (fun s => s) claim1Oracle []
      { conversation_text := "w" } rfl rfl,
    (claim1_error_propagation.2 "E").1⟩

/-! ## Claim C3 — title dedup keeps highest confidence, snippet tie-break -/

/-- The preorder "kept over": `d` loses to (or ties below) `c` — lower
confidence, or equal confidence with at most as many code snippets. -/
def lexLE (d c : PConcept) : Prop :=
  d.confidence_score < c.confidence_score ∨
    (d.confidence_score = c.confidence_score ∧
      d.codeSnippets.length ≤ c.codeSnippets.length)

theorem lexLE_refl (c : PConcept) : lexLE c c :=
  Or.inr ⟨rfl, le_refl _⟩

theorem lexLE_trans {a b c : PConcept} (h1 : lexLE a b) (h2 : lexLE b c) :
    lexLE a c := by
  rcases h1 with h1 | ⟨h1, h1'⟩ <;> rcases h2 with h2 | ⟨h2, h2'⟩
  · exact Or.inl (lt_trans h1 h2)
  · exact Or.inl (h2 ▸ h1)
  · exact Or.inl (h1 ▸ h2)
  · exact Or.inr ⟨h1.trans h2, h1'.trans h2'⟩

theorem betterMP_false_iff {d c : PConcept} :
    betterMP d c = false ↔ lexLE d c := by
  simp only [betterMP, lexLE, Bool.or_eq_false_iff, Bool.and_eq_false_iff,
    decide_eq_false_iff_not, not_lt, beq_eq_false_iff_ne, ne_eq]
  constructor
  · rintro ⟨hle, hor⟩
    rcases lt_or_eq_of_le hle with hlt | heq
    · exact Or.inl hlt
    · rcases hor with hne | hlen
      · exact absurd heq hne
      · exact Or.inr ⟨heq, hlen⟩
  · rintro (hlt | ⟨heq, hlen⟩)
    · exact ⟨le_of_lt hlt, Or.inl (ne_of_lt hlt)⟩
    · exact ⟨le_of_eq heq, Or.inr hlen⟩

theorem lexLE_of_betterMP {d c : PConcept} (h : betterMP c d = true) :
    lexLE d c := by
  simp only [betterMP, Bool.or_eq_true, Bool.and_eq_true, decide_eq_true_eq,
    beq_iff_eq] at h
  rcases h with h | ⟨heq, hlen⟩
  · exact Or.inl h
  · exact Or.inr ⟨heq.symm, le_of_lt hlen⟩

/-- One dedup step on the incumbent entry of a key: keep it unless the
newcomer is strictly better. -/
def pickStep (better : PConcept → PConcept → Bool)
    (acc : Option PConcept) (d : PConcept) : Option PConcept :=
  match acc with
  | none => some d
  | some e => if better d e then some d else some e

/-- The per-key effect of a whole dedup run. -/
def pickBest (better : PConcept → PConcept → Bool)
    (init : Option PConcept) (l : List PConcept) : Option PConcept :=
  l.foldl (pickStep better) init

theorem pickBest_cons (better : PConcept → PConcept → Bool)
    (init : Option PConcept) (d : PConcept) (rest : List PConcept) :
    pickBest better init (d :: rest) =
      pickBest better (pickStep better init d) rest := rfl

theorem pickBest_mem (better : PConcept → PConcept → Bool) (l : List PConcept) :
    ∀ init v, pickBest better init l = some v → init = some v ∨ v ∈ l := by
  induction l with
  | nil => intro init v h; exact Or.inl h
  | cons d rest ih =>
    intro init v h
    rw [pickBest_cons] at h
    rcases ih (pickStep better init d) v h with h' | h'
    · cases init with
      | none =>
        injection h' with h''
        exact Or.inr (h'' ▸ List.mem_cons_self _ _)
      | some e =>
        rw [show pickStep better (some e) d =
            (if better d e then some d else some e) from rfl] at h'
        split at h'
        · injection h' with h''
          exact Or.inr (h'' ▸ List.mem_cons_self _ _)
        · exact Or.inl h'
    · exact Or.inr (List.mem_cons_of_mem _ h')

theorem pickBest_some_isSome (better : PConcept → PConcept → Bool)
    (l : List PConcept) : ∀ e, (pickBest better (some e) l).isSome := by
  induction l with
  | nil => intro e; rfl
  | cons d rest ih =>
    intro e
    rw [pickBest_cons]
    rw [show pickStep better (some e) d =
        (if better d e then some d else some e) from rfl]
    split
    · exact ih d
    · exact ih e

theorem pickBest_ne_nil (better : PConcept → PConcept → Bool)
    (l : List PConcept) (init : Option PConcept) (h : l ≠ []) :
    (pickBest better init l).isSome := by
  cases l with
  | nil => exact absurd rfl h
  | cons d rest =>
    rw [pickBest_cons]
    cases init with
    | none => exact pickBest_some_isSome better rest d
    | some e =>
      rw [show pickStep better (some e) d =
          (if better d e then some d else some e) from rfl]
      split
      · exact pickBest_some_isSome better rest d
      · exact pickBest_some_isSome better rest e

theorem pickBest_dominates (l : List PConcept) :
    ∀ init v, pickBest betterMP init l = some v →
      (∀ e, init = some e → lexLE e v) ∧ (∀ d ∈ l, lexLE d v) := by
  induction l with
  | nil =>
    intro init v h
    refine ⟨?_, by simp⟩
    intro e he
    rw [he] at h
    injection h with h
    exact h ▸ lexLE_refl e
  | cons d rest ih =>
    intro init v h
    rw [pickBest_cons] at h
    have key := ih (pickStep betterMP init d) v h
    have hdv : lexLE d v := by
      cases init with
      | none => exact key.1 d rfl
      | some e =>
        cases hb : betterMP d e
        · refine lexLE_trans (betterMP_false_iff.mp hb) (key.1 e ?_)
          simp [pickStep, hb]
        · refine key.1 d ?_
          simp [pickStep, hb]
    refine ⟨?_, ?_⟩
    · intro e he
      subst he
      cases hb : betterMP d e
      · refine key.1 e ?_
        simp [pickStep, hb]
      · refine lexLE_trans (lexLE_of_betterMP hb) (key.1 d ?_)
        simp [pickStep, hb]
    · intro x hx
      rcases List.mem_cons.mp hx with hx | hx
      · exact hx ▸ hdv
      · exact key.2 x hx

theorem mem_aset {α : Type} (m : List (String × α)) (k : String) (v : α) :
    ∀ p ∈ aset m k v, p ∈ m ∨ p = (k, v) := by
  induction m with
  | nil =>
    intro p hp
    simp [aset] at hp
    exact Or.inr hp
  | cons hd t ih =>
    intro p hp
    obtain ⟨k0, w⟩ := hd
    by_cases hk : k0 = k
    · subst hk
      simp only [aset, beq_self_eq_true, if_pos] at hp
      rcases List.mem_cons.mp hp with hp | hp
      · exact Or.inr hp
      · exact Or.inl (List.mem_cons_of_mem _ hp)
    · simp only [aset, beq_iff_eq, hk, if_neg, not_false_iff] at hp
      rcases List.mem_cons.mp hp with hp | hp
      · exact Or.inl (hp ▸ List.mem_cons_self _ _)
      · rcases ih p hp with h | h
        · exact Or.inl (List.mem_cons_of_mem _ h)
        · exact Or.inr h

theorem alookup_none_iff {α : Type} (m : List (String × α)) (k : String) :
    alookup m k = none ↔ k ∉ m.map Prod.fst := by
  induction m with
  | nil => simp [alookup]
  | cons hd t ih =>
    obtain ⟨k0, w⟩ := hd
    by_cases hk : k0 = k
    · subst hk
      simp [alookup]
    · simp [alookup, hk, ih, Ne.symm hk]

theorem map_fst_aset_some {α : Type} (m : List (String × α)) (k : String)
    (v e : α) (h : alookup m k = some e) :
    (aset m k v).map Prod.fst = m.map Prod.fst := by
  induction m with
  | nil => simp [alookup] at h
  | cons hd t ih =>
    obtain ⟨k0, w⟩ := hd
    by_cases hk : k0 = k
    · subst hk
      simp [aset]
    · simp only [alookup, beq_iff_eq, hk, if_neg, not_false_iff] at h
      simp [aset, hk, ih h]

theorem map_fst_aset_none {α : Type} (m : List (String × α)) (k : String)
    (v : α) (h : alookup m k = none) :
    (aset m k v).map Prod.fst = m.map Prod.fst ++ [k] := by
  induction m with
  | nil => simp [aset]
  | cons hd t ih =>
    obtain ⟨k0, w⟩ := hd
    by_cases hk : k0 = k
    · simp [alookup, hk] at h
    · simp only [alookup, beq_iff_eq, hk, if_neg, not_false_iff] at h
      simp [aset, hk, ih h]

theorem mem_of_alookup {α : Type} (m : List (String × α)) (k : String) (v : α)
    (h : alookup m k = some v) : (k, v) ∈ m := by
  induction m with
  | nil => simp [alookup] at h
  | cons hd t ih =>
    obtain ⟨k0, w⟩ := hd
    by_cases hk : k0 = k
    · subst hk
      simp only [alookup, beq_self_eq_true, if_pos, Option.some.injEq] at h
      exact h ▸ List.mem_cons_self _ _
    · simp only [alookup, beq_iff_eq, hk, if_neg, not_false_iff] at h
      exact List.mem_cons_of_mem _ (ih h)

theorem alookup_of_mem_nodup {α : Type} (m : List (String × α)) (k : String)
    (v : α) (hn : (m.map Prod.fst).Nodup) (hm : (k, v) ∈ m) :
    alookup m k = some v := by
  induction m with
  | nil => simp at hm
  | cons hd t ih =>
    obtain ⟨k0, w⟩ := hd
    simp only [List.map_cons, List.nodup_cons] at hn
    rcases List.mem_cons.mp hm with hm1 | hm1
    · injection hm1 with h1 h2
      subst h1
      subst h2
      simp [alookup]
    · have hkt : k ∈ t.map Prod.fst := List.mem_map.mpr ⟨(k, v), hm1, rfl⟩
      have hne : ¬(k0 = k) := fun he => hn.1 (he ▸ hkt)
      simp only [alookup, beq_iff_eq, hne, if_neg, not_false_iff]
      exact ih hn.2 hm1

theorem dedupFold_cons (better : PConcept → PConcept → Bool)
    (m : List (String × PConcept)) (c : PConcept) (rest : List PConcept) :
    dedupFold better m (c :: rest) =
      dedupFold better
        (match alookup m c.title with
         | none => m ++ [(c.title, c)]
         | some e => if better c e then aset m c.title c else m) rest := rfl

/-- The entry a dedup run leaves under key `k` is the fold of the dedup
step over the incumbents with that exact title, in order. -/
theorem lookup_dedupFold (better : PConcept → PConcept → Bool) (l : List PConcept) :
    ∀ (m : List (String × PConcept)) (k : String),
      alookup (dedupFold better m l) k =
        pickBest better (alookup m k) (l.filter (fun d => d.title == k)) := by
  induction l with
  | nil => intro m k; rfl
  | cons c rest ih =>
    intro m k
    rw [dedupFold_cons, ih]
    by_cases hck : c.title = k
    · subst hck
      have hfil : (c :: rest).filter (fun d => d.title == c.title) =
          c :: rest.filter (fun d => d.title == c.title) := by simp
      rw [hfil, pickBest_cons]
      congr 1
      cases hm : alookup m c.title with
      | none =>
        simp only [hm, pickStep]
        exact alookup_append_single_none m c.title c hm
      | some e =>
        simp only [hm, pickStep]
        cases hb : better c e
        · simp only [hb, Bool.false_eq_true, if_false]
          exact hm
        · simp only [hb, if_true]
          exact alookup_aset_self m c.title c
    · have hfil : (c :: rest).filter (fun d => d.title == k) =
          rest.filter (fun d => d.title == k) := by simp [hck]
      rw [hfil]
      congr 1
      cases hm : alookup m c.title with
      | none =>
        simp only [hm]
        exact alookup_append_single_ne m c.title k c (fun he => hck he.symm)
      | some e =>
        simp only [hm]
        cases hb : better c e
        · simp only [hb, Bool.false_eq_true, if_false]
        · simp only [hb, if_true]
          exact alookup_aset_ne m c.title k c (fun he => hck he.symm)

/-- Every entry of a dedup run is keyed by its concept's title. -/
theorem dedupFold_key_title (better : PConcept → PConcept → Bool)
    (l : List PConcept) :
    ∀ m, (∀ p ∈ m, p.1 = p.2.title) →
      ∀ p ∈ dedupFold better m l, p.1 = p.2.title := by
  induction l with
  | nil => intro m hm p hp; exact hm p hp
  | cons c rest ih =>
    intro m hm p hp
    rw [dedupFold_cons] at hp
    refine ih _ ?_ p hp
    intro q hq
    cases hm' : alookup m c.title with
    | none =>
      simp only [hm'] at hq
      rcases List.mem_append.mp hq with h | h
      · exact hm q h
      · simp only [List.mem_singleton] at h
        subst h
        rfl
    | some e =>
      simp only [hm'] at hq
      split at hq
      · rcases mem_aset m c.title c q hq with h | h
        · exact hm q h
        · subst h
          rfl
      · exact hm q hq

/-- A dedup run keeps its keys distinct. -/
theorem dedupFold_keys_nodup (better : PConcept → PConcept → Bool)
    (l : List PConcept) :
    ∀ m, ((m.map Prod.fst).Nodup) →
      ((dedupFold better m l).map Prod.fst).Nodup := by
  induction l with
  | nil => intro m hm; exact hm
  | cons c rest ih =>
    intro m hm
    rw [dedupFold_cons]
    refine ih _ ?_
    cases hm' : alookup m c.title with
    | none =>
      simp only [hm']
      rw [List.map_append, List.nodup_append]
      refine ⟨hm, by simp, ?_⟩
      intro a ha hb
      simp only [List.map_cons, List.map_nil, List.mem_singleton] at hb
      subst hb
      exact (alookup_none_iff m c.title).mp hm' ha
    | some e =>
      simp only [hm']
      split
      · rw [map_fst_aset_some m c.title c e hm']
        exact hm
      · exact hm

/-- C3: the multi-pass dedup of accumulated concepts (lines 2262-2276)
groups by exact title string; every kept concept is one of the inputs
and, among the inputs with its exact title, has maximal confidence with
ties broken towards more code snippets (every same-titled input has
strictly lower confidence, or equal confidence and at most as many code
snippets); kept titles are pairwise distinct and every input title
survives. -/
theorem claim3_dedup_highest_confidence (l : List PConcept) :
    (∀ c ∈ dedupTiebreak l, c ∈ l ∧
      ∀ d ∈ l, d.title = c.title →
        (d.confidence_score < c.confidence_score ∨
          (d.confidence_score = c.confidence_score ∧
            d.codeSnippets.length ≤ c.codeSnippets.length))) ∧
    ((dedupTiebreak l).map PConcept.title).Nodup ∧
    (∀ d ∈ l, ∃ c ∈ dedupTiebreak l, c.title = d.title) := by
  have hkey := dedupFold_key_title betterMP l [] (by simp)
  have hnd := dedupFold_keys_nodup betterMP l [] (by simp)
  refine ⟨?_, ?_, ?_⟩
  · intro c hc
    simp only [dedupTiebreak, List.mem_map] at hc
    obtain ⟨p, hp, hpc⟩ := hc
    obtain ⟨k, v⟩ := p
    simp only at hpc
    subst hpc
    have hk : k = v.title := hkey (k, v) hp
    have hlk : alookup (dedupFold betterMP [] l) k = some v :=
      alookup_of_mem_nodup _ k v hnd hp
    rw [lookup_dedupFold betterMP l [] k] at hlk
    rcases pickBest_mem betterMP _ _ v hlk with h | h
    · exact absurd h (by simp [alookup])
    · have hvl : v ∈ l := (List.mem_filter.mp h).1
      have hdom := (pickBest_dominates _ _ v hlk).2
      refine ⟨hvl, ?_⟩
      intro d hd hdt
      have hdf : d ∈ l.filter (fun x => x.title == k) := by
        refine List.mem_filter.mpr ⟨hd, ?_⟩
        simp [hdt, hk]
      exact hdom d hdf
  · have hmap : (dedupTiebreak l).map PConcept.title =
        (dedupFold betterMP [] l).map Prod.fst := by
      simp only [dedupTiebreak, List.map_map]
      refine List.map_congr_left ?_
      intro p hp
      exact (hkey p hp).symm
    rw [hmap]
    exact hnd
  · intro d hd
    have hne : l.filter (fun x => x.title == d.title) ≠ [] :=
      List.ne_nil_of_mem (List.mem_filter.mpr ⟨hd, by simp⟩)
    have hsome : (alookup (dedupFold betterMP [] l) d.title).isSome := by
      rw [lookup_dedupFold betterMP l [] d.title]
      exact pickBest_ne_nil betterMP _ _ hne
    obtain ⟨v, hv⟩ := Option.isSome_iff_exists.mp hsome
    have hmem := mem_of_alookup _ _ _ hv
    refine ⟨v, ?_, ?_⟩
    · simp only [dedupTiebreak, List.mem_map]
      exact ⟨(d.title, v), hmem, rfl⟩
    · exact (hkey (d.title, v) hmem).symm

/-- The low-confidence `A` of the C3 witness (confidence 0.6). -/
def claim3LowConf : PConcept :=
  { title := "A", confidence_score := mkRat 3 5 }

/-- The high-confidence `A` of the C3 witness (confidence 0.9). -/
def claim3HighConf : PConcept :=
  { title := "A", confidence_score := mkRat 9 10 }

/-- Witness for C3: two concepts titled `A` with confidences 0.6 and 0.9
dedup to exactly the 0.9 one, which dominates the other. -/
theorem claim3_dedup_highest_confidence_witness :
    dedupTiebreak [claim3LowConf, claim3HighConf] = [claim3HighConf] ∧
    claim3HighConf ∈ [claim3LowConf, claim3HighConf] ∧
    (claim3LowConf.confidence_score < claim3HighConf.confidence_score ∨
      (claim3LowConf.confidence_score = claim3HighConf.confidence_score ∧
        claim3LowConf.codeSnippets.length ≤ claim3HighConf.codeSnippets.length)) := by
  have he : dedupTiebreak [claim3LowConf, claim3HighConf] = [claim3HighConf] := rfl
  have hmem : claim3HighConf ∈ dedupTiebreak [claim3LowConf, claim3HighConf] := by
    rw [he]
    exact List.mem_singleton.mpr rfl
  have h := (claim3_dedup_highest_confidence [claim3LowConf, claim3HighConf]).1
    claim3HighConf hmem
  exact ⟨he, h.1, h.2 claim3LowConf (List.mem_cons_self _ _) rfl⟩
